import Mathlib

/-!
Verification development for the certificate-location-and-decoding core of the
epak-fix-tool repository (JavaScript).  The JavaScript sources are shallowly
embedded: JS strings are `List Char`, byte buffers are `List Nat` (each entry a
byte value 0..255 produced by `Buffer`/`charCodeAt`), JS numbers that hold
lengths are `Int` with explicit 32-bit wrap-around where the source uses the
`<<`/`|` operators, and thrown JS exceptions are `Except JsErr`.  Third-party
node-forge functions that the source calls (`forge.asn1.fromDer`,
`forge.pki.certificateFromAsn1`, `forge.pkcs7.messageFromAsn1`, small
utilities) are modelled from the node-forge sources; the places where the
model deliberately simplifies (the speculative BIT STRING/OCTET STRING
recomposition heuristic, BMPString decoding, local-timezone date handling)
are noted in the corresponding doc comments — each simplification is chosen so
that it cannot change any behaviour the theorems below observe.
-/

/-- Strings of the embedded JavaScript are sequences of UTF-16 code units;
all data handled here stays in the latin1 range, so a list of `Char` is a
faithful representation. -/
abbrev JStr := List Char

/-- The JavaScript `NA` sentinel of `CertificateParser`. -/
def NAstr : JStr := ['N', 'A']

/-- Whitespace set skipped by JavaScript `parseInt` (StrWhiteSpaceChar:
tab, LF, VT, FF, CR, space, NBSP, line/paragraph separator, BOM). -/
def isJsWhite (c : Char) : Bool :=
  c.toNat = 9 ∨ c.toNat = 10 ∨ c.toNat = 11 ∨ c.toNat = 12 ∨ c.toNat = 13 ∨
  c.toNat = 32 ∨ c.toNat = 160 ∨ c.toNat = 0x2028 ∨ c.toNat = 0x2029 ∨
  c.toNat = 0xFEFF

/-- Character class `\s` of JavaScript regular expressions (the members that
can occur in a latin1 document, plus the standard Unicode space members). -/
def isRegexSpace (c : Char) : Bool :=
  isJsWhite c ∨ c.toNat = 0x1680 ∨ (0x2000 ≤ c.toNat ∧ c.toNat ≤ 0x200A) ∨
  c.toNat = 0x202F ∨ c.toNat = 0x205F ∨ c.toNat = 0x3000

/-- Decimal digit test, as used by the regex class `\d` and by `parseInt`
with radix 10 (character codes 48..57). -/
def isDecDigit (c : Char) : Bool := 48 ≤ c.toNat ∧ c.toNat ≤ 57

/-- Hexadecimal digit test, the character class `[0-9A-Fa-f]`. -/
def isHexDigitJs (c : Char) : Bool :=
  (48 ≤ c.toNat ∧ c.toNat ≤ 57) ∨ (97 ≤ c.toNat ∧ c.toNat ≤ 102) ∨
  (65 ≤ c.toNat ∧ c.toNat ≤ 70)

/-- Numeric value of a digit character in radix 10 or 16. -/
def digitVal (c : Char) : Nat :=
  if 48 ≤ c.toNat ∧ c.toNat ≤ 57 then c.toNat - 48
  else if 97 ≤ c.toNat ∧ c.toNat ≤ 102 then c.toNat - 97 + 10
  else if 65 ≤ c.toNat ∧ c.toNat ≤ 70 then c.toNat - 65 + 10
  else 0

/-- Digit test for a given radix (only radices 10 and 16 occur in the
embedded source). -/
def isRadixDigit (radix : Nat) (c : Char) : Bool :=
  if radix = 16 then isHexDigitJs c else isDecDigit c

/-- Value of a digit list read most-significant first. -/
def digitsVal (radix : Nat) (ds : List Char) : Nat :=
  ds.foldl (fun acc c => acc * radix + digitVal c) 0

/-- Model of JavaScript `parseInt(string, radix)` for radix 10 and 16, and of
`parseInt(string)` (radix 0 selects the default behaviour: radix 10 unless
the string starts with `0x`/`0X`, which selects 16).  Whitespace is skipped,
one sign character is honoured, and the longest digit run is converted; the
result is `none` exactly when JS would return `NaN` (no digits).  The sign
step consumes one leading `-` or `+`. -/
def jsParseSign (t : JStr) : Int × JStr :=
  match t with
  | c :: r => if c = '-' then (-1, r) else if c = '+' then (1, r) else (1, t)
  | [] => (1, t)

/-- Radix selection of `parseInt`: a `0x`/`0X` prefix under the default or
hex radix selects 16 and is consumed; otherwise the default radix is 10. -/
def jsParseRadix (radix0 : Nat) (t2 : JStr) : Nat × JStr :=
  if radix0 = 16 ∨ radix0 = 0 then
    match t2 with
    | c0 :: c1 :: r =>
      if c0 = '0' ∧ (c1 = 'x' ∨ c1 = 'X') then (16, r)
      else (if radix0 = 0 then 10 else 16, t2)
    | _ => (if radix0 = 0 then 10 else 16, t2)
  else (radix0, t2)

/-- Digit-run conversion of `parseInt` after sign and radix processing. -/
def jsParseIntTail (sgn : Int) (q : Nat × JStr) : Option Int :=
  let ds := q.2.takeWhile (isRadixDigit q.1)
  if ds.isEmpty then none else some (sgn * (digitsVal q.1 ds : Int))

def jsParseInt (radix0 : Nat) (cs : JStr) : Option Int :=
  let p := jsParseSign (cs.dropWhile isJsWhite)
  jsParseIntTail p.1 (jsParseRadix radix0 p.2)

/-- Strict reading of a string as an integer numeral: an optional single sign
followed by one or more decimal digits, consuming the whole string.  This is
the specification-level meaning of "the value parses as an integer", used to
state the claims; the code itself uses `jsParseInt`. -/
def strictIntParse (cs : JStr) : Option Int :=
  match cs with
  | [] => none
  | c :: r =>
    if c = '-' then
      if r ≠ [] ∧ r.all isDecDigit then some (-(digitsVal 10 r : Int)) else none
    else if c = '+' then
      if r ≠ [] ∧ r.all isDecDigit then some ((digitsVal 10 r : Int)) else none
    else
      if (c :: r).all isDecDigit then some ((digitsVal 10 (c :: r) : Int)) else none

/-- Two-complement reinterpretation of the low 32 bits of an integer, the
result type of the JavaScript `<<` and `|` operators. -/
def toInt32 (n : Int) : Int :=
  let u := n % 4294967296
  let u := if u < 0 then u + 4294967296 else u
  if u < 2147483648 then u else u - 4294967296

/-- One step `acc = (acc << 8) | b` of the length accumulations in the
source, with JavaScript 32-bit semantics (`b` is always a byte value). -/
def jsShl8Or (acc : Int) (b : Nat) : Int :=
  let u := acc % 4294967296
  let u := if u < 0 then u + 4294967296 else u
  toInt32 ((u * 256) % 4294967296 + (b % 256))

/-- Big-endian accumulation `for j: len = (len << 8) | bytes[pos + j]` over
`n` bytes starting at `pos`; out-of-range reads contribute 0, mirroring
`undefined | x` in JavaScript. -/
def beAccum (bytes : List Nat) (pos n : Nat) : Int :=
  (List.range n).foldl (fun acc j => jsShl8Or acc (bytes.getD (pos + j) 0)) 0

/-- Truthiness of a JS string: every string except the empty one. -/
def jsTruthy (s : JStr) : Bool := ¬ s.isEmpty

/-- Truthiness of an optional JS string value (`undefined`/`null` and the
empty string are falsy). -/
def jsTruthyOpt : Option JStr → Bool
  | none => false
  | some s => jsTruthy s

/-- Model of `s.toUpperCase()` for one character in the latin1 subset the
source manipulates (ASCII letters are mapped, everything else kept). -/
def jsToUpperChar (c : Char) : Char :=
  if 97 ≤ c.toNat ∧ c.toNat ≤ 122 then Char.ofNat (c.toNat - 32) else c

/-- Model of `String.fromCharCode(x)`: NaN becomes code unit 0 (`ToUint16`),
numbers are reduced modulo 2^16. -/
def jsFromCharCode : Option Int → Nat
  | none => 0
  | some n =>
    let u := n % 65536
    (if u < 0 then u + 65536 else u).toNat

/-! ## CertificateParser: the pure identity decoders

Translated from `src/web-terminal/certificateParser.js`.  The JS methods take
a possibly-`undefined` string, modelled as `Option JStr`. -/

/-- Translation of `CertificateParser.getPinCode` (certificateParser.js lines
340-350): the raw postal-code value is returned unchanged when it is truthy
and `parseInt(postalCode) > 0`; otherwise the sentinel `NA`.  `parseInt` is
called without a radix, so the JS default-radix behaviour applies. -/
def getPinCode (postalCode : Option JStr) : JStr :=
  match postalCode with
  | none => NAstr
  | some s =>
    if jsTruthy s then
      match jsParseInt 0 s with
      | some n => if 0 < n then s else NAstr
      | none => NAstr
    else NAstr

/-- Translation of `CertificateParser.getBirthYear` (certificateParser.js
lines 358-372): for a truthy qualifier of length at least 4, the first four
characters are returned when `parseInt` reads them as a number greater than
1900. -/
def getBirthYear (dnQualifier : Option JStr) : JStr :=
  match dnQualifier with
  | none => NAstr
  | some s =>
    if jsTruthy s ∧ 4 ≤ s.length then
      let sub := s.take 4
      match jsParseInt 0 sub with
      | some year => if 1900 < year then sub else NAstr
      | none => NAstr
    else NAstr

/-- Translation of `CertificateParser.getGenderInfo` (certificateParser.js
lines 380-389): for a truthy qualifier of length at least 5, the fifth
character is returned upper-cased when it occurs in `'MmFfTt'`. -/
def getGenderInfo (dnQualifier : Option JStr) : JStr :=
  match dnQualifier with
  | none => NAstr
  | some s =>
    if jsTruthy s ∧ 5 ≤ s.length then
      match s.get? 4 with
      | some g =>
        if g ∈ ['M', 'm', 'F', 'f', 'T', 't'] then [jsToUpperChar g] else NAstr
      | none => NAstr
    else NAstr

/-! ## PDFCertificateExtractor: byte-level primitives

Translated from `src/unnamed/part_006` (pdfCertificateExtractor.js). -/

/-- Translation of `PDFCertificateExtractor.hexToBytes` (part_006 lines
586-592): the hex text is consumed two characters at a time with
`String.fromCharCode(parseInt(hex.substr(i, 2), 16))`; an odd final character
forms a one-character chunk, and chunks without a hex-digit prefix become
byte 0 (`fromCharCode(NaN)`).  The function is total — it never throws. -/
def hexToBytes : JStr → List Nat
  | [] => []
  | [c] => [jsFromCharCode (jsParseInt 16 [c])]
  | c1 :: c2 :: rest => jsFromCharCode (jsParseInt 16 [c1, c2]) :: hexToBytes rest

/-- The five magic bytes `%PDF-`. -/
def pdfMagic : List Nat := [0x25, 0x50, 0x44, 0x46, 0x2D]

/-- Translation of `PDFCertificateExtractor.isPDF` (part_006 lines 599-602):
`buffer.toString('utf8', 0, 5) === '%PDF-'`.  Because the comparand is pure
ASCII and Node's UTF-8 decoder maps a byte window to it exactly when the
window consists of those five bytes (overlong encodings decode to
replacement characters), the check is equivalent to comparing the first five
bytes with the magic. -/
def isPDF (buffer : List Nat) : Bool := buffer.take 5 = pdfMagic

/-- Translation of the `0xA0`-tag length decoding of
`extractCertificateByPattern` (part_006 lines 259-281).  `pos` is the index
of the first length byte; the result is `(certSectionLength, contentStart)`.
The single byte `0x80` selects the indefinite-length branch, which scans to
the end of the buffer (`certSectionLength = bytes.length - contentStart`);
a long-form byte accumulates big-endian with 32-bit `<<`/`|` arithmetic; a
short-form byte is the length itself. -/
def a0SectionDecode (bytes : List Nat) (pos : Nat) : Int × Nat :=
  let b := bytes.getD pos 0
  if b = 0x80 then
    ((bytes.length : Int) - ((pos + 1 : Nat) : Int), pos + 1)
  else if b &&& 0x80 ≠ 0 then
    let n := b &&& 0x7F
    (beAccum bytes (pos + 1) n, pos + 1 + n)
  else
    ((b : Int), pos + 1)

/-- Translation of the SEQUENCE length decoding inside strategy 1 of
`extractCertificateByPattern` (part_006 lines 300-312).  `scanPos` is the
index of the `0x30` tag; the result is `(seqLength, seqLengthBytes)`.  Note
that the byte `0x80` takes the long-form branch with zero length bytes here,
yielding `(0, 2)` — identical to the definite zero length `0x00`. -/
def seqLenDecode (bytes : List Nat) (scanPos : Nat) : Int × Nat :=
  let b := bytes.getD (scanPos + 1) 0
  if b &&& 0x80 ≠ 0 then
    let n := b &&& 0x7F
    (beAccum bytes (scanPos + 2) n, 2 + n)
  else
    ((b : Int), 2)

/-! ## ASN.1 object model and the node-forge DER/BER decoder

The source parses byte strings with `forge.asn1.fromDer`.  The model below is
translated from node-forge's `asn1.js` (`_fromDer`, `_getValueLength`,
`fromDer`, `toDer`) with its default options (`strict: true`,
`parseAllBytes: true`).  Two documented simplifications: the speculative
recomposition of primitive BIT STRING / OCTET STRING values (node-forge's
`decodeBitStrings` heuristic) is omitted — it only rewrites the value of such
a primitive node when its content happens to parse completely, never changes
whether parsing succeeds, how many bytes are consumed, or the child count of
any constructed node, which is all the embedded source ever observes — and
BMPString values are kept as raw bytes. -/

/-- A parsed ASN.1 node: `tagClass` is the raw class bits (0, 0x40, 0x80,
0xC0), `typ` the low five tag bits, `constructed` the 0x20 flag; a primitive
node's value is its raw byte string, a constructed node's value is the array
of children. -/
inductive Asn1 where
  | prim (tagClass typ : Nat) (constructed : Bool) (bytes : List Nat)
  | cons (tagClass typ : Nat) (constructed : Bool) (children : List Asn1)

/-- Tag-class bits of a node. -/
def Asn1.tagClassOf : Asn1 → Nat
  | .prim tc _ _ _ => tc
  | .cons tc _ _ _ => tc

/-- Type (low tag bits) of a node. -/
def Asn1.typOf : Asn1 → Nat
  | .prim _ t _ _ => t
  | .cons _ t _ _ => t

/-- Constructed flag of a node. -/
def Asn1.constructedOf : Asn1 → Bool
  | .prim _ _ c _ => c
  | .cons _ _ c _ => c

/-- The JavaScript test `Array.isArray(obj.value)`. -/
def Asn1.valueIsArray : Asn1 → Bool
  | .prim _ _ _ _ => false
  | .cons _ _ _ _ => true

/-- Children of a node whose value is an array (empty for primitives). -/
def Asn1.childrenOf : Asn1 → List Asn1
  | .prim _ _ _ _ => []
  | .cons _ _ _ l => l

/-- The JavaScript expression `obj.value.length` (string length for a
primitive value, array length for a constructed one). -/
def Asn1.valueLen : Asn1 → Nat
  | .prim _ _ _ bs => bs.length
  | .cons _ _ _ l => l.length

/-- The JavaScript test `obj.value && Array.isArray(obj.value) &&
obj.value.length === n` used throughout the source to count top-level
elements (an empty array is truthy, so only arrayness and the count
matter). -/
def Asn1.isArrayOfLen (a : Asn1) (n : Nat) : Bool :=
  a.valueIsArray ∧ a.valueLen = n

/-- Error kinds of the modelled node-forge decoder.  Only the `Unparsed DER
bytes remain` message is ever inspected textually by the embedded source, so
kinds stand in for messages. -/
inductive DerErr where
  | tooFewTag
  | tooFewLen
  | negativeLength
  | unsupportedRead
  | tooFewValue
  | indefinitePrimitive
  | unparsedBytes
  | fuel
deriving DecidableEq

/-- Big-endian value of a byte list (node-forge `bytes.getInt`). -/
def natBE (bs : List Nat) : Nat := bs.foldl (fun a b => a * 256 + b) 0

mutual

/-- Recursive worker of the `forge.asn1.fromDer` model; returns the parsed
node, the unconsumed rest of the stream and the number of bytes consumed.
`remaining` is the caller-imposed byte budget exactly as in node-forge's
`_fromDer`.  The `fuel` argument only forces termination; every call
consumes at least two stream bytes, so the instantiation in `fromDer` never
exhausts it. -/
def fromDerRec : Nat → List Nat → Nat → Except DerErr (Asn1 × List Nat × Nat)
  | 0, _, _ => .error .fuel
  | fuel + 1, bs, remaining =>
    if remaining < 2 then .error .tooFewTag else
    match bs with
    | [] => .error .tooFewTag
    | b1 :: bs1 =>
      let tagClass := b1 &&& 0xC0
      let typ := b1 &&& 0x1F
      let constructed := decide (b1 &&& 0x20 = 0x20)
      match bs1 with
      | [] => .error .tooFewTag
      | b2 :: bs2 =>
        let lenStep : Except DerErr (Option Nat × List Nat × Nat) :=
          if b2 = 0x80 then .ok (none, bs2, 2)
          else if b2 &&& 0x80 ≠ 0 then
            let n := b2 &&& 0x7F
            if remaining - 2 < n then .error .tooFewLen
            else if 4 < n then .error .unsupportedRead
            else
              let len := natBE (bs2.take n)
              if 2147483648 ≤ len then .error .negativeLength
              else .ok (some len, bs2.drop n, 2 + n)
          else .ok (some b2, bs2, 2)
        match lenStep with
        | .error e => .error e
        | .ok (lenOpt, rest, hdr) =>
          let remaining2 := remaining - hdr
          match lenOpt with
          | some len =>
            if remaining2 < len then .error .tooFewValue
            else if constructed then
              match fromDerChildren fuel rest len with
              | .error e => .error e
              | .ok (kids, rest2, c) =>
                .ok (.cons tagClass typ constructed kids, rest2, hdr + c)
            else
              .ok (.prim tagClass typ constructed (rest.take len), rest.drop len, hdr + len)
          | none =>
            if constructed then
              match fromDerIndef fuel rest remaining2 with
              | .error e => .error e
              | .ok (kids, rest2, c) =>
                .ok (.cons tagClass typ constructed kids, rest2, hdr + c)
            else .error .indefinitePrimitive

/-- Child loop for a definite-length constructed value: children are parsed
until the declared content length is used up, each child receiving the
残 length as its budget (node-forge `while(length > 0) ...`). -/
def fromDerChildren : Nat → List Nat → Nat → Except DerErr (List Asn1 × List Nat × Nat)
  | 0, _, _ => .error .fuel
  | fuel + 1, bs, len =>
    if len = 0 then .ok ([], bs, 0)
    else
      match fromDerRec fuel bs len with
      | .error e => .error e
      | .ok (a, rest, consumed) =>
        match fromDerChildren fuel rest (len - consumed) with
        | .error e => .error e
        | .ok (l, rest2, c2) => .ok (a :: l, rest2, consumed + c2)

/-- Child loop for an indefinite-length constructed value: children are
parsed until the `00 00` end-of-contents marker (node-forge's
`for(;;)` loop with the two-byte lookahead). -/
def fromDerIndef : Nat → List Nat → Nat → Except DerErr (List Asn1 × List Nat × Nat)
  | 0, _, _ => .error .fuel
  | fuel + 1, bs, remaining =>
    if remaining < 2 then .error .tooFewTag
    else
      match bs with
      | 0 :: 0 :: rest => .ok ([], rest, 2)
      | _ =>
        match fromDerRec fuel bs remaining with
        | .error e => .error e
        | .ok (a, rest, consumed) =>
          match fromDerIndef fuel rest (remaining - consumed) with
          | .error e => .error e
          | .ok (l, rest2, c2) => .ok (a :: l, rest2, consumed + c2)

end

/-- Model of `forge.asn1.fromDer(bytes)` with default options: parse one
value with the whole buffer as budget, then fail with the `Unparsed DER
bytes remain` error if anything is left over. -/
def fromDer (bs : List Nat) : Except DerErr Asn1 :=
  match fromDerRec (bs.length + 1) bs bs.length with
  | .error e => .error e
  | .ok (a, rest, _) => if rest.isEmpty then .ok a else .error .unparsedBytes

/-- Minimal big-endian byte representation of a natural number (used by the
long-form branch of the DER length encoder; empty for 0, matching the
node-forge `do..while` that the short form always pre-empts). -/
def beBytesGo : Nat → Nat → List Nat
  | 0, _ => []
  | fuel + 1, n =>
    if n = 0 then [] else beBytesGo fuel (n / 256) ++ [n % 256]

def beBytes (n : Nat) : List Nat := beBytesGo (n + 1) n

/-- DER length encoding (node-forge `toDer`): short form up to 127,
otherwise a count byte `0x80 | n` followed by `n` big-endian bytes. -/
def derLenEncode (len : Nat) : List Nat :=
  if len ≤ 127 then [len]
  else
    let lb := beBytes len
    (lb.length ||| 0x80) :: lb

mutual

/-- Model of `forge.asn1.toDer` restricted to the node shapes the source
rebuilds (no BMPString re-encoding, no saved `bitStringContents`, both of
which cannot occur in the rebuilt structures): tag byte from class, type and
composedness, then the encoded length, then the serialized content. -/
def toDerBytes : Asn1 → List Nat
  | .prim tagClass typ constructed bytes =>
    (tagClass ||| typ ||| (if constructed then 0x20 else 0)) ::
      derLenEncode bytes.length ++ bytes
  | .cons tagClass typ _ children =>
    let content := toDerList children
    (tagClass ||| typ ||| 0x20) :: derLenEncode content.length ++ content

/-- Concatenated serialization of a list of children. -/
def toDerList : List Asn1 → List Nat
  | [] => []
  | a :: rest => toDerBytes a ++ toDerList rest

end

/-! ## node-forge utility models -/

/-- Error kinds of the embedded pipeline.  JavaScript distinguishes errors by
message text; the source only ever tests three message fragments
(`Unparsed DER bytes`, `OID is not RSA`, `X509v3 Certificate`), so kinds are
a faithful substitute.  Wrapping an error in an outer `Failed to ...:`
message keeps the fragment, hence kinds are preserved across re-throws. -/
inductive JsErr where
  | der (e : DerErr)
  | x509NotV3
  | oidNotRsa
  | validityCount
  | typeError
  | p7Validate
  | p7Unsupported
  | noCertsInSignature
  | asn1NoCertFound
  | patternNoCert
  | noSignatureFound
  | notAPdf
  | pemErr
deriving DecidableEq

/-- Test `error.message.includes('Unparsed DER bytes')` of part_006 line
135: true exactly for the parse-all-bytes failure of `fromDer`. -/
def errIncludesUnparsed : JsErr → Bool
  | .der .unparsedBytes => true
  | _ => false

/-- Test of certificateParser.js line 83: the message contains
`OID is not RSA` or `X509v3 Certificate`. -/
def errIncludesRsaOrX509 : JsErr → Bool
  | .oidNotRsa => true
  | .x509NotV3 => true
  | _ => false

/-- Decimal string of an integer, as JavaScript number-to-string produces
for integral values. -/
def intToDecStr (i : Int) : JStr := (toString i).toList

/-- The lowercase hex digit of a value below 16 (codes 48..57 and 97..102,
as `'0123456789abcdef'[d]` reads). -/
def hexDigitChar (d : Nat) : Char :=
  if d < 10 then Char.ofNat (48 + d) else Char.ofNat (87 + d)

/-- Lowercase hexadecimal string of a natural number (at least one digit). -/
def natToHexStrGo : Nat → Nat → JStr
  | 0, _ => []
  | fuel + 1, n =>
    if n < 16 then [hexDigitChar n]
    else natToHexStrGo fuel (n / 16) ++ [hexDigitChar (n % 16)]

def natToHexStr (n : Nat) : JStr := natToHexStrGo (n + 1) n

/-- Model of node-forge `ByteStringBuffer.toHex`: each code unit below 16 is
zero-padded to two digits. -/
def bytesToHexStr (bs : List Nat) : JStr :=
  bs.flatMap (fun b => (if b < 16 then ['0'] else []) ++ natToHexStr b)

/-- Model of `forge.util.bytesToHex(field.value)` as called in
certificateParser.js line 122: a primitive value (a byte string) is
hex-encoded; an array value falls into `util.createBuffer`'s unknown-input
branch, which yields an empty buffer and hence the empty string. -/
def bytesToHexJs : Asn1 → JStr
  | .prim _ _ _ bs => bytesToHexStr bs
  | .cons _ _ _ _ => []

/-- One shift step `value = value << 7` of `derToOid`, with 32-bit
semantics. -/
def jsShl7 (v : Int) : Int :=
  let u := v % 4294967296
  let u := if u < 0 then u + 4294967296 else u
  toInt32 ((u * 128) % 4294967296)

/-- Model of `forge.asn1.derToOid` on a byte-string value.  An empty input
reads NaN for the first byte and produces the string `NaN.NaN` (no throw);
subsequent bytes accumulate base-128 components with 32-bit shifts. -/
def derToOidBytes (bs : List Nat) : JStr :=
  match bs with
  | [] => "NaN.NaN".toList
  | b :: rest =>
    let oid0 := intToDecStr (b / 40) ++ ['.'] ++ intToDecStr (b % 40)
    let step := fun (st : JStr × Int) (b2 : Nat) =>
      let v := jsShl7 st.2
      if b2 &&& 0x80 ≠ 0 then (st.1, v + (b2 &&& 0x7F : Nat))
      else (st.1 ++ ['.'] ++ intToDecStr (v + (b2 : Nat)), 0)
    (rest.foldl step (oid0, 0)).1

/-- Model of `forge.asn1.derToOid` applied to an ASN.1 node's `value`: a
primitive value is decoded; an array value reaches `Array.getByte`, which
does not exist, so JavaScript throws a TypeError. -/
def derToOidJs : Asn1 → Except JsErr JStr
  | .prim _ _ _ bs => .ok (derToOidBytes bs)
  | .cons _ _ _ _ => .error .typeError

/-- Strict UTF-8 decoding, the semantics of
`decodeURIComponent(escape(bytes))` used by `forge.util.decodeUtf8`:
malformed sequences throw (modelled as `none`).  Astral code points are kept
as single characters (JavaScript would store a surrogate pair; no embedded
computation depends on the length of such a value). -/
def utf8Decode : List Nat → Option JStr
  | [] => some []
  | b :: rest =>
    if b < 0x80 then (utf8Decode rest).map (Char.ofNat b :: ·)
    else if 0xC2 ≤ b ∧ b ≤ 0xDF then
      match rest with
      | c1 :: rest2 =>
        if 0x80 ≤ c1 ∧ c1 ≤ 0xBF then
          (utf8Decode rest2).map (Char.ofNat ((b - 0xC0) * 64 + (c1 - 0x80)) :: ·)
        else none
      | _ => none
    else if 0xE0 ≤ b ∧ b ≤ 0xEF then
      match rest with
      | c1 :: c2 :: rest2 =>
        let lo1 := if b = 0xE0 then 0xA0 else 0x80
        let hi1 := if b = 0xED then 0x9F else 0xBF
        if lo1 ≤ c1 ∧ c1 ≤ hi1 ∧ 0x80 ≤ c2 ∧ c2 ≤ 0xBF then
          (utf8Decode rest2).map
            (Char.ofNat ((b - 0xE0) * 4096 + (c1 - 0x80) * 64 + (c2 - 0x80)) :: ·)
        else none
      | _ => none
    else if 0xF0 ≤ b ∧ b ≤ 0xF4 then
      match rest with
      | c1 :: c2 :: c3 :: rest2 =>
        let lo1 := if b = 0xF0 then 0x90 else 0x80
        let hi1 := if b = 0xF4 then 0x8F else 0xBF
        if lo1 ≤ c1 ∧ c1 ≤ hi1 ∧ 0x80 ≤ c2 ∧ c2 ≤ 0xBF ∧ 0x80 ≤ c3 ∧ c3 ≤ 0xBF then
          (utf8Decode rest2).map
            (Char.ofNat ((b - 0xF0) * 262144 + (c1 - 0x80) * 4096 + (c2 - 0x80) * 64 + (c3 - 0x80)) :: ·)
        else none
      | _ => none
    else none

/-- Latin1 view of a byte string: the JavaScript string whose code units are
the bytes themselves (`binary`/`latin1` encoding, node-forge's native string
representation of parsed values). -/
def latin1Str (bs : List Nat) : JStr := bs.map (fun b => Char.ofNat (b % 256))

/-- Code units of a latin1 JavaScript string (inverse view, used when a
string is scanned as bytes). -/
def strBytes (s : JStr) : List Nat := s.map Char.toNat

/-! ## Date model

JavaScript `Date` epoch-millisecond computations for the node-forge
`utcTimeToDate` / `generalizedTimeToDate` functions, over the proleptic
Gregorian calendar.  A value of `none` is NaN (an Invalid Date). -/

/-- Days from the civil epoch 1970-01-01 for year/month(1-12)/day, the
standard days-from-civil algorithm on integers. -/
def daysFromCivil (y m d : Int) : Int :=
  let y2 := if m ≤ 2 then y - 1 else y
  let era := y2.fdiv 400
  let yoe := y2 - era * 400
  let mp := (m + 9).emod 12
  let doy := (153 * mp + 2).fdiv 5 + d - 1
  let doe := yoe * 365 + yoe.fdiv 4 - yoe.fdiv 100 + doy
  era * 146097 + doe - 719468

/-- Epoch milliseconds of `setUTCFullYear(Y, monthIndex, D)` followed by
`setUTCHours(hh, mm, ss, ms)`, including the JavaScript normalization of
out-of-range fields (month 13 rolls into the next year, day 0 into the
previous month, hour 25 into the next day, and so on). -/
def dateMillis (Y monthIndex D hh mm ss ms : Int) : Int :=
  let total := 12 * Y + monthIndex
  let y := total.fdiv 12
  let m := total.emod 12
  daysFromCivil y (m + 1) D * 86400000 + hh * 3600000 + mm * 60000 + ss * 1000 + ms

/-- JavaScript `substr(i, n)` on a string. -/
def jsSubstr (s : JStr) (i n : Nat) : JStr := (s.drop i).take n

/-- JavaScript `charAt(i)` with an `Int` index; out-of-range and negative
indices give the empty string, modelled as `none`. -/
def jsCharAt (s : JStr) (i : Int) : Option Char :=
  if 0 ≤ i then s.get? i.toNat else none

/-- Model of `forge.asn1.utcTimeToDate(utc).getTime()` (node-forge asn1.js).
The function never throws on a string input; any unparsable component turns
the result into NaN (`none`).  The hoisted `end` variable is `undefined`
when the string has at most 11 characters, so the timezone block only runs
for longer strings. -/
def utcTimeToMillis (utc : JStr) : Option Int :=
  let year2 := jsParseInt 10 (jsSubstr utc 0 2)
  let year := year2.map (fun y => if 50 ≤ y then 1900 + y else 2000 + y)
  let mm0 := (jsParseInt 10 (jsSubstr utc 2 2)).map (· - 1)
  let dd := jsParseInt 10 (jsSubstr utc 4 2)
  let hh := jsParseInt 10 (jsSubstr utc 6 2)
  let mi := jsParseInt 10 (jsSubstr utc 8 2)
  let ssEnd : Option Int × Option Nat :=
    if 11 < utc.length then
      match jsCharAt utc 10 with
      | some c =>
        if c ≠ '+' ∧ c ≠ '-' then (jsParseInt 10 (jsSubstr utc 10 2), some 12)
        else (some 0, some 10)
      | none => (some 0, some 10)
    else (some 0, none)
  let base : Option Int :=
    match year, mm0, dd, hh, mi, ssEnd.1 with
    | some y, some mo, some d, some h, some mi2, some s =>
      some (dateMillis y mo d h mi2 s 0)
    | _, _, _, _, _, _ => none
  match ssEnd.2 with
  | none => base
  | some e =>
    match jsCharAt utc e with
    | some c =>
      if c = '+' ∨ c = '-' then
        match base, jsParseInt 10 (jsSubstr utc (e + 1) 2),
              jsParseInt 10 (jsSubstr utc (e + 3) 2) with
        | some t, some ho, some mo =>
          some (if c = '+' then t - (ho * 60 + mo) * 60000 else t + (ho * 60 + mo) * 60000)
        | _, _, _ => none
      else base
    | none => base

/-- Model of `forge.asn1.generalizedTimeToDate(g).getTime()`.  The local-time
branch (no `Z` and no explicit offset) depends on the host timezone in
JavaScript; the model takes that timezone to be UTC, a documented
environment choice no theorem depends on.  Fractional seconds are truncated
to milliseconds, matching the final TimeClip of the epoch value. -/
def generalizedTimeToMillis (g : JStr) : Option Int :=
  let yyyy := jsParseInt 10 (jsSubstr g 0 4)
  let mm0 := (jsParseInt 10 (jsSubstr g 4 2)).map (· - 1)
  let dd := jsParseInt 10 (jsSubstr g 6 2)
  let hh := jsParseInt 10 (jsSubstr g 8 2)
  let mi := jsParseInt 10 (jsSubstr g 10 2)
  let ss := jsParseInt 10 (jsSubstr g 12 2)
  let offsetSigned : Option Int :=
    match jsCharAt g ((g.length : Int) - 5) with
    | some c =>
      if c = '+' ∨ c = '-' then
        let e := (g.length - 5 : Nat)
        match jsParseInt 10 (jsSubstr g (e + 1) 2), jsParseInt 10 (jsSubstr g (e + 3) 2) with
        | some ho, some mo => some ((if c = '+' then -1 else 1) * (ho * 60 + mo) * 60000)
        | _, _ => none
      else some 0
    | none => some 0
  let fff : Option Int :=
    match jsCharAt g 14 with
    | some '.' =>
      let ds := (jsSubstr g 15 (g.length)).takeWhile isDecDigit
      if ds.isEmpty then none
      else some (digitsVal 10 ((ds ++ ['0', '0', '0']).take 3) : Int)
    | _ => some 0
  match yyyy, mm0, dd, hh, mi, ss, fff, offsetSigned with
  | some y, some mo, some d, some h, some mi2, some s, some f, some off =>
    some (dateMillis y mo d h mi2 s f + off)
  | _, _, _, _, _, _, _, _ => none

/-! ## node-forge `asn1.validate` and the validators the source exercises -/

/-- A validator node, mirroring the descriptor objects of node-forge
(`tagClass`/`type`/`constructed` guards are wildcards when absent, `optional`
marks skippable children, `capture` stores the matched node's value,
`captureAsn1` the node itself).  An empty `children` list behaves like an
absent `value` field — both make the child loop vacuous. -/
inductive VNode where
  | mk (tagClass typ : Option Nat) (constructed : Option Bool) (vOpt : Bool)
       (capture captureAsn1 : Option String) (children : List VNode)

/-- A captured value: the `value` of a primitive node, the child array of a
constructed node, or a whole node for `captureAsn1`. -/
inductive Capt where
  | bytes (bs : List Nat)
  | kids (l : List Asn1)
  | node (a : Asn1)

/-- A JavaScript value reached by `obj.value[j]` during validation: an ASN.1
child, or the one-character string obtained by indexing a primitive
value. -/
inductive JsAsn1 where
  | node (a : Asn1)
  | ch (c : Nat)

/-- The expression `obj.value[j]`, `undefined` modelled as `none`
(single-character strings are always truthy, so any `some` passes the
`if (obj.value[j])` test). -/
def jsValueIdx : JsAsn1 → Nat → Option JsAsn1
  | .node (.cons _ _ _ l), j => (l.get? j).map .node
  | .node (.prim _ _ _ bs), j => (bs.get? j).map .ch
  | .ch _, _ => none

/-- Guard `obj.f === v.f || typeof v.f === 'undefined'` for a numeric
field (a character pseudo-node has every field `undefined`). -/
def guardNat (ov : Option Nat) : Option Nat → Bool
  | none => true
  | some x => ov = some x

/-- Guard for the `constructed` field. -/
def guardBool (ov : Option Bool) : Option Bool → Bool
  | none => true
  | some x => ov = some x

/-- Field views of a `JsAsn1` value. -/
def JsAsn1.tagClassF : JsAsn1 → Option Nat
  | .node a => some a.tagClassOf
  | .ch _ => none

/-- Type field view. -/
def JsAsn1.typF : JsAsn1 → Option Nat
  | .node a => some a.typOf
  | .ch _ => none

/-- Constructed field view. -/
def JsAsn1.constructedF : JsAsn1 → Option Bool
  | .node a => some a.constructedOf
  | .ch _ => none

/-- Own captures contributed by a validator node once it has matched. -/
def ownCaptures (o : JsAsn1) (cap capA : Option String) : List (String × Capt) :=
  let c1 : List (String × Capt) :=
    match cap, o with
    | some k, .node (.prim _ _ _ bs) => [(k, .bytes bs)]
    | some k, .node (.cons _ _ _ l) => [(k, .kids l)]
    | _, _ => []
  let c2 : List (String × Capt) :=
    match capA, o with
    | some k, .node a => [(k, .node a)]
    | _, _ => []
  c1 ++ c2

mutual

/-- Model of `forge.asn1.validate(obj, v, capture, errors)` (node-forge
asn1.js), returning the verdict and the capture assignments made along
successful sub-validations.  The only divergence from the JavaScript is that
indexing into the `value` of a character pseudo-node (which would throw a
TypeError) is treated as an absent child — no validator used here guards a
node with every field undefined, so that situation is unreachable. -/
def vValidate : JsAsn1 → VNode → Bool × List (String × Capt)
  | o, .mk tc ty cstr _ cap capA kids =>
    if guardNat o.tagClassF tc ∧ guardNat o.typF ty then
      if guardBool o.constructedF cstr then
        match vValidateKids o kids 0 with
        | (true, caps) => (true, caps ++ ownCaptures o cap capA)
        | (false, caps) => (false, caps)
      else (false, [])
    else (false, [])

/-- The child loop of `asn1.validate`: validator children are consumed in
order, the object-child cursor `j` advancing only on a successful match;
optional validator children may be skipped. -/
def vValidateKids : JsAsn1 → List VNode → Nat → Bool × List (String × Capt)
  | _, [], _ => (true, [])
  | o, v :: rest, j =>
    let vopt := match v with | .mk _ _ _ b _ _ _ => b
    match jsValueIdx o j with
    | some child =>
      match vValidate child v with
      | (true, caps) =>
        match vValidateKids o rest (j + 1) with
        | (r2, caps2) => (r2, caps ++ caps2)
      | (false, caps) =>
        if vopt then
          match vValidateKids o rest j with
          | (r2, caps2) => (r2, caps ++ caps2)
        else (false, caps)
    | none =>
      if vopt then vValidateKids o rest j else (false, [])

end

/-- Lookup of a capture key; later assignments win, as for JavaScript
property writes. -/
def capGet (caps : List (String × Capt)) (k : String) : Option Capt :=
  (caps.reverse.find? (fun p => p.1 = k)).map (·.2)

/-- The node-forge `x509CertificateValidator` (x509.js), reproduced to the
depth the embedded behaviour depends on.  Universal tag classes are 0,
context-specific 0x80; types: INTEGER 2, BIT STRING 3, OID 6, SEQUENCE 16,
UTCTime 23, GeneralizedTime 24. -/
def x509CertificateValidator : VNode :=
  .mk (some 0) (some 16) (some true) false none none
    [ .mk (some 0) (some 16) (some true) false none (some "tbsCertificate")
        [ .mk (some 0x80) (some 0) (some true) true none none
            [ .mk (some 0) (some 2) (some false) false (some "certVersion") none [] ],
          .mk (some 0) (some 2) (some false) false (some "certSerialNumber") none [],
          .mk (some 0) (some 16) (some true) false none none
            [ .mk (some 0) (some 6) (some false) false (some "certinfoSignatureOid") none [],
              .mk (some 0) none none true none (some "certinfoSignatureParams") [] ],
          .mk (some 0) (some 16) (some true) false none (some "certIssuer") [],
          .mk (some 0) (some 16) (some true) false none none
            [ .mk (some 0) (some 23) (some false) true (some "certValidity1UTCTime") none [],
              .mk (some 0) (some 24) (some false) true (some "certValidity2GeneralizedTime") none [],
              .mk (some 0) (some 23) (some false) true (some "certValidity3UTCTime") none [],
              .mk (some 0) (some 24) (some false) true (some "certValidity4GeneralizedTime") none [] ],
          .mk (some 0) (some 16) (some true) false none (some "certSubject") [],
          .mk (some 0) (some 16) (some true) false none (some "subjectPublicKeyInfo")
            [ .mk (some 0) (some 16) (some true) false none none
                [ .mk (some 0) (some 6) (some false) false (some "publicKeyOid") none [],
                  .mk (some 0) none none true none none [] ],
              .mk (some 0) (some 3) (some false) false none none
                [ .mk (some 0) (some 16) (some true) true none (some "rsaPublicKey") [] ] ],
          .mk (some 0x80) (some 1) (some true) true none none [],
          .mk (some 0x80) (some 2) (some true) true none none [],
          .mk (some 0x80) (some 3) (some true) true none (some "certExtensions") [] ],
      .mk (some 0) (some 16) (some true) false none none
        [ .mk (some 0) (some 6) (some false) false (some "certSignatureOid") none [],
          .mk (some 0) none none true none (some "certSignatureParams") [] ],
      .mk (some 0) (some 3) (some false) false (some "certSignature") none [] ]

/-- The node-forge PKCS#7 `contentInfoValidator` (p7.js). -/
def contentInfoValidator : VNode :=
  .mk (some 0) (some 16) (some true) false none none
    [ .mk (some 0) (some 6) (some false) false (some "contentType") none [],
      .mk (some 0x80) (some 0) (some true) true none (some "content") [] ]

/-- The node-forge PKCS#7 `signedDataValidator` (p7asn1.js), reproduced to
the depth the embedded behaviour depends on: version, digest algorithm set,
inner content info, the optional implicitly tagged certificate set (whose
value array is captured as `certs`), the optional CRL field, and the signer
info set. -/
def signedDataValidator : VNode :=
  .mk (some 0) (some 16) (some true) false none none
    [ .mk (some 0) (some 2) (some false) false (some "version") none [],
      .mk (some 0) (some 17) (some true) false none (some "digestAlgorithms") [],
      .mk (some 0) (some 16) (some true) false none (some "contentInfo")
        [ .mk (some 0) (some 6) (some false) false (some "sdContentType") none [],
          .mk (some 0x80) (some 0) (some true) true none (some "sdContent") [] ],
      .mk (some 0x80) (some 0) (some true) true (some "certs") none [],
      .mk (some 0x80) (some 1) (some true) true (some "crls") none [],
      .mk (some 0) (some 17) (some true) false none (some "signerInfos") [] ]

/-- A Subject/Issuer attribute as produced by node-forge's
`RDNAttributesAsArray` (x509.js): the dotted OID, the long name and short
alias when known, the value text, and the value's ASN.1 type. -/
structure ForgeAttr where
  typOid : JStr
  name : Option JStr
  shortName : Option JStr
  value : JStr
deriving DecidableEq

/-- The OID-to-long-name table of `forge.pki.oids` restricted to the
attribute OIDs this pipeline can meet. -/
def forgeOidName (oid : JStr) : Option JStr :=
  if oid = "2.5.4.3".toList then some "commonName".toList
  else if oid = "2.5.4.6".toList then some "countryName".toList
  else if oid = "2.5.4.7".toList then some "localityName".toList
  else if oid = "2.5.4.8".toList then some "stateOrProvinceName".toList
  else if oid = "2.5.4.10".toList then some "organizationName".toList
  else if oid = "2.5.4.11".toList then some "organizationalUnitName".toList
  else if oid = "1.2.840.113549.1.9.1".toList then some "emailAddress".toList
  else none

/-- The `_shortNames` table of node-forge x509.js (long name to alias). -/
def forgeShortName (name : JStr) : Option JStr :=
  if name = "commonName".toList then some "CN".toList
  else if name = "countryName".toList then some "C".toList
  else if name = "localityName".toList then some "L".toList
  else if name = "stateOrProvinceName".toList then some "ST".toList
  else if name = "organizationName".toList then some "O".toList
  else if name = "organizationalUnitName".toList then some "OU".toList
  else if name = "emailAddress".toList then some "E".toList
  else none

/-- The JavaScript coercion of an attribute value to text as the embedded
pipeline observes it: a primitive value is its latin1 string, an array value
stringifies to comma-joined `[object Object]` entries (this is what
`decodeUtf8` via `escape` produces for an array, and what any later string
use of an uncoerced array value produces). -/
def attrValueText (v : Asn1) : JStr :=
  match v with
  | .prim _ _ _ bs => latin1Str bs
  | .cons _ _ _ l =>
    match l with
    | [] => []
    | _ :: rest =>
      "[object Object]".toList ++ rest.flatMap (fun _ => ',' :: "[object Object]".toList)

/-- Model of one attribute tuple of `RDNAttributesAsArray`: the first child
is the OID, the second the value; a UTF8String (type 12) value is decoded
strictly and a malformed one throws. -/
def forgeAttrOfTuple (t : Asn1) : Except JsErr ForgeAttr :=
  match t.childrenOf with
  | v0 :: v1 :: _ =>
    match derToOidJs v0 with
    | .error e => .error e
    | .ok oid =>
      let rawVal : Except JsErr JStr :=
        if v1.typOf = 12 ∧ v1.valueIsArray = false then
          match v1 with
          | .prim _ _ _ bs =>
            match utf8Decode bs with
            | some s => .ok s
            | none => .error .typeError
          | .cons _ _ _ _ => .ok (attrValueText v1)
        else .ok (attrValueText v1)
      match rawVal with
      | .error e => .error e
      | .ok val =>
        let nm := forgeOidName oid
        let sn := match nm with
          | some n => forgeShortName n
          | none => none
        .ok { typOid := oid, name := nm, shortName := sn, value := val }
  | _ => .error .typeError

/-- Model of `forge.pki.RDNAttributesAsArray(rdn)`: every SET child of the
name sequence contributes all of its attribute tuples in order.  Shape
violations (a primitive where a constructed node is required) hit an
undefined property in JavaScript and throw. -/
def rdnAttributesAsArray (rdn : Asn1) : Except JsErr (List ForgeAttr) :=
  let rec goSets : List Asn1 → Except JsErr (List ForgeAttr)
    | [] => .ok []
    | s :: rest =>
      let rec goTuples : List Asn1 → Except JsErr (List ForgeAttr)
        | [] => .ok []
        | t :: ts =>
          match forgeAttrOfTuple t with
          | .error e => .error e
          | .ok a =>
            match goTuples ts with
            | .error e => .error e
            | .ok l => .ok (a :: l)
      match s with
      | .cons _ _ _ tuples =>
        match goTuples tuples with
        | .error e => .error e
        | .ok l =>
          match goSets rest with
          | .error e => .error e
          | .ok l2 => .ok (l ++ l2)
      | .prim _ _ _ _ => .error .typeError
  match rdn with
  | .cons _ _ _ sets => goSets sets
  | .prim _ _ _ _ => .ok []

/-- The certificate object the embedded code reads after a successful
`forge.pki.certificateFromAsn1`: serial number hex, the two validity
instants, subject and issuer attribute arrays, and the ASN.1 the
re-serialization `certificateToAsn1` would rebuild (a SEQUENCE of the
original three children — node-forge reuses the captured TBSCertificate and
re-encodes the signature fields from the same data). -/
structure CertObj where
  serialNumber : JStr
  notBeforeMillis : Option Int
  notAfterMillis : Option Int
  subjectAttrs : List ForgeAttr
  issuerAttrs : List ForgeAttr
  rebuilt : Asn1

/-- Model of `forge.pki.certificateFromAsn1(obj)` to the depth the embedded
code observes: the X.509 validator runs first (failure throws the
`...not an X509v3 Certificate` error), then the public-key OID must be RSA
(`1.2.840.113549.1.1.1`, otherwise the `OID is not RSA` error), then the
serial, the exactly-two validity times and both attribute arrays are read.
The RSA public-key bit parsing is not modelled; its failures would surface
as other, unmarked errors on paths no theorem takes. -/
def certificateFromAsn1 (a : Asn1) : Except JsErr CertObj :=
  match vValidate (.node a) x509CertificateValidator with
  | (false, _) => .error .x509NotV3
  | (true, caps) =>
    let pkOid : Except JsErr JStr :=
      match capGet caps "publicKeyOid" with
      | some (.bytes bs) => .ok (derToOidBytes bs)
      | some (.kids _) => .error .typeError
      | _ => .error .typeError
    match pkOid with
    | .error e => .error e
    | .ok oid =>
      if oid ≠ "1.2.840.113549.1.1.1".toList then .error .oidNotRsa
      else
        let serial : JStr :=
          match capGet caps "certSerialNumber" with
          | some (.bytes bs) => bytesToHexStr bs
          | _ => []
        let validity : List (Option Int) :=
          (match capGet caps "certValidity1UTCTime" with
           | some (.bytes bs) => [utcTimeToMillis (latin1Str bs)]
           | _ => []) ++
          (match capGet caps "certValidity2GeneralizedTime" with
           | some (.bytes bs) => [generalizedTimeToMillis (latin1Str bs)]
           | _ => []) ++
          (match capGet caps "certValidity3UTCTime" with
           | some (.bytes bs) => [utcTimeToMillis (latin1Str bs)]
           | _ => []) ++
          (match capGet caps "certValidity4GeneralizedTime" with
           | some (.bytes bs) => [generalizedTimeToMillis (latin1Str bs)]
           | _ => [])
        match validity with
        | [nb, na] =>
          let subj : Except JsErr (List ForgeAttr) :=
            match capGet caps "certSubject" with
            | some (.node n) => rdnAttributesAsArray n
            | _ => .error .typeError
          let issr : Except JsErr (List ForgeAttr) :=
            match capGet caps "certIssuer" with
            | some (.node n) => rdnAttributesAsArray n
            | _ => .error .typeError
          match subj, issr with
          | .ok sa, .ok ia =>
            .ok { serialNumber := serial, notBeforeMillis := nb, notAfterMillis := na,
                  subjectAttrs := sa, issuerAttrs := ia,
                  rebuilt := .cons 0 16 true a.childrenOf }
          | .error e, _ => .error e
          | _, .error e => .error e
        | _ => .error .validityCount

/-! ## CertificateParser: attribute extraction and record construction -/

/-- An attribute map: assignments in write order; a lookup returns the last
write, like a JavaScript object property read. -/
abbrev AttrMap := List (JStr × JStr)

/-- Property read `m[k]` (`none` is `undefined`). -/
def attrGet (m : AttrMap) (k : JStr) : Option JStr :=
  ((m.reverse).find? (fun p => p.1 = k)).map (·.2)

/-- JavaScript `a || b` on two possibly-undefined strings: the first operand
is returned when truthy (defined and non-empty), otherwise the second. -/
def jsOrOpt (a b : Option JStr) : Option JStr :=
  if jsTruthyOpt a then a else b

/-- JavaScript `a || b || 'NA'`: the first truthy operand, defaulting to the
sentinel. -/
def jsOrNA (a b : Option JStr) : JStr :=
  match jsOrOpt a b with
  | some s => if jsTruthy s then s else NAstr
  | none => NAstr

/-- The inline `nameMap` of `extractAsn1Attributes` (certificateParser.js
lines 243-253). -/
def cpNameMap (oid : JStr) : Option JStr :=
  if oid = "2.5.4.3".toList then some "CN".toList
  else if oid = "2.5.4.6".toList then some "C".toList
  else if oid = "2.5.4.7".toList then some "L".toList
  else if oid = "2.5.4.8".toList then some "ST".toList
  else if oid = "2.5.4.10".toList then some "O".toList
  else if oid = "2.5.4.11".toList then some "OU".toList
  else if oid = "2.5.4.12".toList then some "T".toList
  else if oid = "2.5.4.17".toList then some "postalCode".toList
  else if oid = "2.5.4.46".toList then some "dnQualifier".toList
  else none

/-- Entries contributed by one RDN of `extractAsn1Attributes`
(certificateParser.js lines 221-259): a SET with a first child that is a
SEQUENCE of at least two elements stores the value under the decoded OID and
under its alias when the OID is known.  A SET whose first element is a
primitive masquerading as a SEQUENCE reaches `derToOid(undefined)` in
JavaScript and throws; a constructed OID value likewise throws inside
`derToOid`. -/
def cpRdnEntries (rdn : Asn1) : Except JsErr AttrMap :=
  if rdn.typOf = 17 ∧ 0 < rdn.valueLen then
    match rdn with
    | .cons _ _ _ (attrSeq :: _) =>
      if attrSeq.typOf = 16 ∧ 2 ≤ attrSeq.valueLen then
        match attrSeq with
        | .cons _ _ _ (v0 :: v1 :: _) =>
          match derToOidJs v0 with
          | .error e => .error e
          | .ok oid =>
            let value := attrValueText v1
            .ok ([(oid, value)] ++
              (match cpNameMap oid with
               | some al => [(al, value)]
               | none => []))
        | _ => .error .typeError
      else .ok []
    | _ => .ok []
  else .ok []

/-- Translation of `CertificateParser.extractAsn1Attributes`
(certificateParser.js lines 215-263).  A missing or primitive-valued name
contributes nothing (iterating a string yields characters that fail the SET
test). -/
def extractAsn1AttributesE (nameAsn1 : Option Asn1) : Except JsErr AttrMap :=
  match nameAsn1 with
  | none => .ok []
  | some (.prim _ _ _ _) => .ok []
  | some (.cons _ _ _ rdns) =>
    let rec go : List Asn1 → Except JsErr AttrMap
      | [] => .ok []
      | rdn :: rest =>
        match cpRdnEntries rdn with
        | .error e => .error e
        | .ok m1 =>
          match go rest with
          | .error e => .error e
          | .ok m2 => .ok (m1 ++ m2)
    go rdns

/-- The externally visible identity record (`details` object of
certificateParser.js).  All fields are strings except `endDate`, which is a
JavaScript number: epoch milliseconds, `0` when no validity was decoded, or
NaN (`none`) when a present validity string did not parse. -/
structure AadhaarDetails where
  serialNumber : JStr
  endDate : Option Int
  signerName : JStr
  tpin : JStr
  state : JStr
  gender : JStr
  yob : JStr
  pincode : JStr
  issuerName : JStr
  issuerOrganisation : JStr
deriving DecidableEq

/-- State of the TBSCertificate field scan of `extractFromAsn1`
(certificateParser.js lines 111-151). -/
structure TbsScan where
  serialNumber : Option JStr
  validity : Option (Option Int)
  issuerA : Option Asn1
  subjectA : Option Asn1

/-- The initial scan state. -/
def tbsScanInit : TbsScan := ⟨none, none, none, none⟩

/-- The time decode attempted on a two-element SEQUENCE field: JavaScript
tries `utcTimeToDate(field.value[1].value)`, which never throws on a string
input (so `generalizedTimeToDate` is unreachable there) and throws — caught
and ignored — when the value is an array or a character's `undefined`. -/
def fieldTimeDecode (field : Asn1) : Option (Option Int) :=
  match field with
  | .cons _ _ _ [_, .prim _ _ _ s] => some (utcTimeToMillis (latin1Str s))
  | _ => none

/-- One step of the TBSCertificate field scan: the three independent `if`
statements of certificateParser.js lines 117-151. -/
def tbsStep (st : TbsScan) (field : Asn1) : TbsScan :=
  let st :=
    if field.typOf = 2 ∧ ¬ jsTruthyOpt st.serialNumber then
      { st with serialNumber := some (bytesToHexJs field) }
    else st
  let st :=
    if field.typOf = 16 ∧ field.valueLen = 2 ∧ st.validity.isNone then
      match fieldTimeDecode field with
      | some jn => { st with validity := some jn }
      | none => st
    else st
  let isSeqOfSet : Bool :=
    if field.typOf = 16 then
      match field with
      | .cons _ _ _ (h :: _) => h.typOf == 17
      | _ => false
    else false
  if isSeqOfSet then
    if st.issuerA.isNone then { st with issuerA := some field }
    else if st.subjectA.isNone then { st with subjectA := some field }
    else st
  else st

/-- Children list of the JavaScript `for` loop over `tbsCertificate.value`:
iterating a primitive's string produces characters that satisfy none of the
field tests, contributing nothing. -/
def tbsFieldsOf (tbs : Asn1) : List Asn1 := tbs.childrenOf

/-- Translation of `CertificateParser.extractFromAsn1` (certificateParser.js
lines 103-208).  A certificate node without an indexable first value throws
a dynamic type error, wrapped by the outer catch; otherwise the TBS fields
are scanned, the subject and issuer attribute maps built (a malformed OID
node propagates its TypeError), and the record assembled with `NA`
defaults — `endDate` defaulting to the number 0. -/
def extractFromAsn1 (asn1Cert : Asn1) : Except JsErr AadhaarDetails :=
  match asn1Cert with
  | .cons _ _ _ (tbsCertificate :: _) =>
    let st := (tbsFieldsOf tbsCertificate).foldl tbsStep tbsScanInit
    match extractAsn1AttributesE st.subjectA with
    | .error e => .error e
    | .ok subjectAttrs =>
      match extractAsn1AttributesE st.issuerA with
      | .error e => .error e
      | .ok issuerAttrs =>
        let dnQualifier := jsOrOpt (attrGet subjectAttrs "2.5.4.46".toList)
                                   (attrGet subjectAttrs "dnQualifier".toList)
        let postalCode := jsOrOpt (attrGet subjectAttrs "2.5.4.17".toList)
                                  (attrGet subjectAttrs "postalCode".toList)
        .ok {
          serialNumber :=
            match st.serialNumber with
            | some s => if jsTruthy s then s else NAstr
            | none => NAstr
          endDate :=
            match st.validity with
            | some jn => jn
            | none => some 0
          signerName := jsOrNA (attrGet subjectAttrs "2.5.4.3".toList)
                               (attrGet subjectAttrs "CN".toList)
          tpin := jsOrNA (attrGet subjectAttrs "2.5.4.12".toList)
                         (attrGet subjectAttrs "T".toList)
          state := jsOrNA (attrGet subjectAttrs "2.5.4.8".toList)
                          (attrGet subjectAttrs "ST".toList)
          gender := if jsTruthyOpt dnQualifier then getGenderInfo dnQualifier else NAstr
          yob := if jsTruthyOpt dnQualifier then getBirthYear dnQualifier else NAstr
          pincode := if jsTruthyOpt postalCode then getPinCode postalCode else NAstr
          issuerName := jsOrNA (attrGet issuerAttrs "2.5.4.3".toList)
                               (attrGet issuerAttrs "CN".toList)
          issuerOrganisation := jsOrNA (attrGet issuerAttrs "2.5.4.10".toList)
                                       (attrGet issuerAttrs "O".toList) }
  | _ => .error .typeError

/-- Translation of `CertificateParser.getAttributes` (certificateParser.js
lines 312-333): every forge attribute is stored under its short name, its
OID and its long name, in that write order. -/
def getAttributes (attrs : List ForgeAttr) : AttrMap :=
  attrs.flatMap (fun a =>
    (match a.shortName with
     | some s => [(s, a.value)]
     | none => []) ++
    [(a.typOid, a.value)] ++
    (match a.name with
     | some n => [(n, a.value)]
     | none => []))

/-- Translation of `CertificateParser.extractAadhaarSignDetails`
(certificateParser.js lines 270-305), reading a successfully parsed forge
certificate object. -/
def extractAadhaarSignDetails (cert : CertObj) : AadhaarDetails :=
  let subjectAttrs := getAttributes cert.subjectAttrs
  let issuerAttrs := getAttributes cert.issuerAttrs
  let dnQualifier := jsOrOpt (attrGet subjectAttrs "dnQualifier".toList)
                             (attrGet subjectAttrs "2.5.4.46".toList)
  let postalCode := jsOrOpt (attrGet subjectAttrs "postalCode".toList)
                            (attrGet subjectAttrs "2.5.4.17".toList)
  { serialNumber := cert.serialNumber
    endDate := cert.notAfterMillis
    signerName := jsOrNA (attrGet subjectAttrs "CN".toList) none
    tpin := jsOrNA (attrGet subjectAttrs "T".toList) none
    state := jsOrNA (attrGet subjectAttrs "ST".toList) none
    gender := getGenderInfo dnQualifier
    yob := getBirthYear dnQualifier
    pincode := getPinCode postalCode
    issuerName := jsOrNA (attrGet issuerAttrs "CN".toList) none
    issuerOrganisation := jsOrNA (attrGet issuerAttrs "O".toList) none }


/-! ## PEM and PKCS#7 models -/

/-- Occurrence test for a byte pattern inside a byte buffer, the semantics
of `buffer.toString('utf8').includes(ascii)` for a pure-ASCII needle (a
malformed byte decodes to a replacement character, never to ASCII, so the
needle occurs in the decoded text exactly when its bytes occur in the
buffer). -/
def bytesContain (hay needle : List Nat) : Bool :=
  match hay with
  | [] => needle.isEmpty
  | _ :: t => needle.isPrefixOf hay || bytesContain t needle

/-- The rest of a character list after the first occurrence of a pattern. -/
def dropAfterSub : JStr → JStr → Option JStr
  | [], pat => if pat.isEmpty then some [] else none
  | l@(_ :: t), pat =>
    if pat.isPrefixOf l then some (l.drop pat.length) else dropAfterSub t pat

/-- The characters before the first occurrence of a pattern, `none` when the
pattern does not occur. -/
def takeUntilSub : JStr → JStr → Option JStr
  | [], _ => none
  | l@(c :: t), pat =>
    if pat.isPrefixOf l then some [] else (takeUntilSub t pat).map (c :: ·)

/-- Base64 value of one character, `none` for characters outside the
alphabet (node-forge strips those before decoding). -/
def b64Val (c : Char) : Option Nat :=
  if 65 ≤ c.toNat ∧ c.toNat ≤ 90 then some (c.toNat - 65)
  else if 97 ≤ c.toNat ∧ c.toNat ≤ 122 then some (c.toNat - 97 + 26)
  else if 48 ≤ c.toNat ∧ c.toNat ≤ 57 then some (c.toNat - 48 + 52)
  else if c = '+' then some 62
  else if c = '/' then some 63
  else none

/-- Base64 decoding in four-character groups with `=` padding (model of
`forge.util.decode64` after its non-alphabet strip; a dangling group of one
character is dropped). -/
def b64Groups : List Char → List Nat
  | a :: b :: c :: d :: rest =>
    match b64Val a, b64Val b with
    | some va, some vb =>
      let b1 := va * 4 + vb / 16
      if c = '=' then [b1]
      else
        match b64Val c with
        | some vc =>
          let b2 := (vb % 16) * 16 + vc / 4
          if d = '=' then [b1, b2]
          else
            match b64Val d with
            | some vd => b1 :: b2 :: ((vc % 4) * 64 + vd) :: b64Groups rest
            | none => [b1, b2]
        | none => [b1]
    | _, _ => []
  | [a, b] =>
    match b64Val a, b64Val b with
    | some va, some vb => [va * 4 + vb / 16]
    | _, _ => []
  | [a, b, c] =>
    match b64Val a, b64Val b, b64Val c with
    | some va, some vb, some vc => [va * 4 + vb / 16, (vb % 16) * 16 + vc / 4]
    | _, _, _ => []
  | _ => []

/-- Model of `forge.pki.certificateFromPem` as exercised by
`parseCertificateFromBuffer`: locate the `BEGIN CERTIFICATE` fences, base64
decode the body, then run the DER parse and the strict certificate reader.
Every shape failure is a PEM-level error; the caller catches all of them
and falls back to the raw ASN.1 path, so the precise kind is never
observed. -/
def certificateFromPem (text : JStr) : Except JsErr CertObj :=
  match dropAfterSub text ("-----BEGIN CERTIFICATE-----".toList) with
  | none => .error .pemErr
  | some afterBegin =>
    match takeUntilSub afterBegin ("-----END CERTIFICATE-----".toList) with
    | none => .error .pemErr
    | some body =>
      let der := b64Groups (body.filter (fun c => (b64Val c).isSome || c = '='))
      match fromDer der with
      | .error _ => .error .pemErr
      | .ok a =>
        match certificateFromAsn1 a with
        | .error _ => .error .pemErr
        | .ok cert => .ok cert

/-- Translation of `CertificateParser.parseCertificateFromBuffer`
(certificateParser.js lines 46-96).  A buffer containing the text
`BEGIN CERTIFICATE` takes the PEM path, any PEM failure falling back to
`extractFromAsn1` over the raw bytes; otherwise the DER parse runs, the
strict certificate reader is attempted, and exactly the errors whose
message carries `OID is not RSA` or `X509v3 Certificate` divert to
`extractFromAsn1`. -/
def parseCertificateFromBuffer (certBuffer : List Nat) : Except JsErr AadhaarDetails :=
  if bytesContain certBuffer (strBytes ("BEGIN CERTIFICATE".toList)) then
    match certificateFromPem (latin1Str certBuffer) with
    | .ok cert => .ok (extractAadhaarSignDetails cert)
    | .error _ =>
      match fromDer certBuffer with
      | .ok a => extractFromAsn1 a
      | .error e => .error (.der e)
  else
    match fromDer certBuffer with
    | .error e => .error (.der e)
    | .ok a =>
      match certificateFromAsn1 a with
      | .ok cert => .ok (extractAadhaarSignDetails cert)
      | .error e =>
        if errIncludesRsaOrX509 e then extractFromAsn1 a else .error e

/-- The PKCS#7 message as far as the embedded code reads it: the list of
certificates of a SignedData envelope. -/
structure P7Msg where
  certificates : List CertObj

/-- Model of `forge.pkcs7.messageFromAsn1` (p7.js) to the depth the embedded
code observes: the ContentInfo shape is validated, only the SignedData
content type (`1.2.840.113549.1.7.2`) is accepted, the SignedData shape is
validated inside the explicit `[0]` wrapper, and every member of the
captured certificate set runs through the strict certificate reader, whose
failure aborts the whole call (the embedded caller treats every failure
alike: it falls back to `extractCertificateFromASN1`). -/
def messageFromAsn1 (a : Asn1) : Except JsErr P7Msg :=
  match vValidate (.node a) contentInfoValidator with
  | (false, _) => .error .p7Validate
  | (true, caps) =>
    let oidE : Except JsErr JStr :=
      match capGet caps "contentType" with
      | some (.bytes bs) => .ok (derToOidBytes bs)
      | some (.kids _) => .error .typeError
      | _ => .error .typeError
    match oidE with
    | .error e => .error e
    | .ok oid =>
      if oid ≠ "1.2.840.113549.1.7.2".toList then .error .p7Unsupported
      else
        match capGet caps "content" with
        | some (.node contentNode) =>
          match contentNode.childrenOf.head? with
          | none => .error .typeError
          | some sd =>
            match vValidate (.node sd) signedDataValidator with
            | (false, _) => .error .p7Validate
            | (true, caps2) =>
              let certsAsn1 : List Asn1 :=
                match capGet caps2 "certs" with
                | some (.kids l) => l
                | _ => []
              let rec buildCerts : List Asn1 → Except JsErr (List CertObj)
                | [] => .ok []
                | c :: rest =>
                  match certificateFromAsn1 c with
                  | .error e => .error e
                  | .ok co =>
                    match buildCerts rest with
                    | .error e => .error e
                    | .ok l => .ok (co :: l)
              match buildCerts certsAsn1 with
              | .error e => .error e
              | .ok certs => .ok { certificates := certs }
        | _ => .error .typeError

/-! ## PDFCertificateExtractor: certificate scanning and extraction -/

/-- Array read `bytes[p]` with an `Int` index: out-of-range and negative
reads give `undefined`, which the arithmetic and comparisons of the source
treat as 0 (for `|`) or as not-equal (for tag tests against non-zero
bytes). -/
def intGetD (bytes : List Nat) (p : Int) : Nat :=
  if 0 ≤ p then bytes.getD p.toNat 0 else 0

/-- Big-endian `(len << 8) | bytes[p + j]` accumulation with an `Int` base
position. -/
def beAccumI (bytes : List Nat) (p : Int) (n : Nat) : Int :=
  (List.range n).foldl (fun acc j => jsShl8Or acc (intGetD bytes (p + j))) 0

/-- JavaScript `Array.prototype.slice(start, end)` with possibly negative
indices (negative values count from the end). -/
def jsSlice (l : List Nat) (s e : Int) : List Nat :=
  let n : Int := l.length
  let s2 := if s < 0 then max 0 (n + s) else min s n
  let e2 := if e < 0 then max 0 (n + e) else min e n
  if s2 < e2 then (l.drop s2.toNat).take (e2 - s2).toNat else []

/-- The SEQUENCE length decoding of strategy 1 at an `Int` scan position
(delegating to `seqLenDecode` for the in-range case; a negative position
reads `undefined`, whose `& 0x80` is 0, giving the short form with an
undefined length that the subsequent slice turns into an empty list — the
model uses 0, which produces the same empty slice). -/
def seqLenDecodeI (bytes : List Nat) (p : Int) : Int × Nat :=
  if 0 ≤ p then seqLenDecode bytes p.toNat else (0, 2)

/-- A certificate candidate of the byte scans: the sliced bytes, the total
size `header + length`, and the offset of the slice. -/
structure FoundCert where
  raw : List Nat
  size : Nat
  offset : Nat
deriving DecidableEq

/-- The `hasAadhaarData` test repeated throughout part_006: at least one of
tpin, gender, year of birth and pincode is not `NA`. -/
def hasAadhaarData (d : AadhaarDetails) : Bool :=
  d.tpin ≠ NAstr ∨ d.gender ≠ NAstr ∨ d.yob ≠ NAstr ∨ d.pincode ≠ NAstr

/-- The certificate-testing loop shared by the scan paths of part_006
(lines 221-245 and 414-444): candidates are parsed in order and the first
one whose record carries Aadhaar data is returned; parse failures are
skipped. -/
def findAadhaarCert : List FoundCert → Option (List Nat)
  | [] => none
  | c :: rest =>
    match parseCertificateFromBuffer c.raw with
    | .ok d => if hasAadhaarData d then some c.raw else findAadhaarCert rest
    | .error _ => findAadhaarCert rest

/-- Worker of `scanForCertificates`, recursing over suffixes of the buffer
(the suffix at offset `i` is `bytes.drop i`, so the loop bound
`i < bytes.length - 100`, the reads `bytes[i + k]` and the bound
`i + headerSize + certLen <= bytes.length` are the local conditions below). -/
def scanForCertsGo : List Nat → Nat → List FoundCert
  | [], _ => []
  | suf@(b0 :: rest), i =>
    if suf.length ≤ 100 then []
    else
      let hit : Bool :=
        b0 == 0x30 && (suf.getD 1 0 == 0x82 || suf.getD 1 0 == 0x83)
      if hit then
        let numLengthBytes := suf.getD 1 0 &&& 0x7F
        let certLen := beAccum suf 2 numLengthBytes
        let headerSize := 2 + numLengthBytes
        if 500 ≤ certLen ∧ certLen ≤ 10000 ∧
            headerSize + certLen.toNat ≤ suf.length then
          let slice := suf.take (headerSize + certLen.toNat)
          let ok3 : Bool :=
            match fromDer slice with
            | .ok a => a.isArrayOfLen 3
            | .error _ => false
          (if ok3 then [⟨slice, headerSize + certLen.toNat, i⟩] else []) ++
            scanForCertsGo rest (i + 1)
        else scanForCertsGo rest (i + 1)
      else scanForCertsGo rest (i + 1)

/-- Translation of `PDFCertificateExtractor.scanForCertificates` (part_006
lines 535-579): every position bearing a `30 82`/`30 83` long-form SEQUENCE
prefix whose declared length lies in 500..10000, fits in the buffer and
parses as an ASN.1 value with exactly three top-level elements contributes a
candidate, in scan order. -/
def scanForCertificates (bytes : List Nat) : List FoundCert :=
  scanForCertsGo bytes 0

/-- Stable insertion of a candidate before the first strictly smaller one
(descending size). -/
def insertBySizeDesc (c : FoundCert) : List FoundCert → List FoundCert
  | [] => [c]
  | x :: xs => if x.size < c.size then c :: x :: xs else x :: insertBySizeDesc c xs

/-- Stable descending sort by size, the behaviour of the JavaScript
`foundCerts.sort((a, b) => b.size - a.size)` (V8's sort is stable). -/
def sortBySizeDesc (l : List FoundCert) : List FoundCert :=
  l.foldl (fun acc c => insertBySizeDesc c acc) []

/-- The nested raw byte scan of strategy 1 (part_006 lines 366-406):
positions from `structStart` up to `structEnd - 100` are examined for
long-form SEQUENCE prefixes with declared length strictly between 100 and
10000 that fit in the buffer and parse with exactly three top-level
elements.  The fuel equals the iteration count, so it is never
exhausted. -/
def nestedScanGo (bytes : List Nat) (structStart : Int) :
    Nat → Int → Int → List FoundCert
  | 0, _, _ => []
  | fuel + 1, rawPos, structEnd =>
    if rawPos < structEnd - 100 then
      let here : List FoundCert :=
        if intGetD bytes rawPos = 0x30 ∧
            (intGetD bytes (rawPos + 1) = 0x82 ∨ intGetD bytes (rawPos + 1) = 0x83) then
          let numLengthBytes := intGetD bytes (rawPos + 1) &&& 0x7F
          let certLen := beAccumI bytes (rawPos + 2) numLengthBytes
          let certLenBytes := 2 + numLengthBytes
          if 100 < certLen ∧ certLen < 10000 ∧
              rawPos + certLenBytes + certLen ≤ (bytes.length : Int) then
            let raw := jsSlice bytes rawPos (rawPos + certLenBytes + certLen)
            match fromDer raw with
            | .ok a =>
              if a.isArrayOfLen 3 then
                [⟨raw, (certLen + certLenBytes).toNat, (rawPos - structStart).toNat⟩]
              else []
            | .error _ => []
          else []
        else []
      here ++ nestedScanGo bytes structStart fuel (rawPos + 1) structEnd
    else []

/-- The inner `while` of strategy 1 (part_006 lines 294-465): SEQUENCE
candidates inside the certificates section are parsed; an exact three-element
parse is returned as-is, a longer parse is searched for a nested
three-element SEQUENCE (re-serialized through `toDer`) and then raw-scanned,
the raw-scan candidates being tested for Aadhaar data with the largest one
as fallback.  The fuel bounds the number of iterations; a declared length
negative enough to move the cursor backwards would loop forever in
JavaScript and exhausts the fuel here. -/
def st1While (bytes : List Nat) : Nat → Int → Int → Option (List Nat)
  | 0, _, _ => none
  | fuel + 1, scanPos, sectionEnd =>
    if scanPos < sectionEnd ∧ scanPos < (bytes.length : Int) then
      if intGetD bytes scanPos = 0x30 then
        let sl := seqLenDecodeI bytes scanPos
        let seqLength := sl.1
        let seqLengthBytes := sl.2
        let seqBytes := jsSlice bytes scanPos (scanPos + seqLengthBytes + seqLength)
        let res : Option (List Nat) :=
          match fromDer seqBytes with
          | .error _ => none
          | .ok a =>
            if a.isArrayOfLen 3 then some seqBytes
            else if a.valueIsArray ∧ 3 < a.valueLen then
              match a.childrenOf.find? (fun e => e.typOf == 16 && e.isArrayOfLen 3) with
              | some elem => some (toDerBytes elem)
              | none =>
                let structEnd := scanPos + seqLengthBytes + seqLength
                let fuelN := (structEnd - 100 - scanPos).toNat + 1
                let fcs := nestedScanGo bytes scanPos fuelN scanPos structEnd
                match fcs with
                | [] => none
                | _ :: _ =>
                  match findAadhaarCert fcs with
                  | some b => some b
                  | none =>
                    match sortBySizeDesc fcs with
                    | c :: _ => some c.raw
                    | [] => none
            else none
        match res with
        | some r => some r
        | none => st1While bytes fuel (scanPos + seqLengthBytes + seqLength) sectionEnd
      else st1While bytes fuel (scanPos + 1) sectionEnd
    else none

/-- The outer loop of strategy 1 (part_006 lines 254-469): every `0xA0` byte
up to position `bytes.length - 4` opens a certificates-section analysis; if
the analysis of one section returns nothing the loop resumes at the next
position. -/
def st1Outer (bytes : List Nat) : List Nat → Nat → Option (List Nat)
  | [], _ => none
  | suf@(b :: rest), i =>
    if suf.length ≤ 4 then none
    else if b = 0xA0 then
      let dec := a0SectionDecode bytes (i + 1)
      let sectionEnd : Int := (dec.2 : Int) + dec.1
      match st1While bytes (bytes.length + 2) (dec.2 : Int) sectionEnd with
      | some r => some r
      | none => st1Outer bytes rest (i + 1)
    else st1Outer bytes rest (i + 1)

/-- Strategy 2 of `extractCertificateByPattern` (part_006 lines 471-520),
recursing over suffixes: a long-form SEQUENCE prefix with declared length in
400..10000 that fits in the buffer and parses with at least three top-level
elements is returned immediately. -/
def strategy2Go : List Nat → Option (List Nat)
  | [] => none
  | suf@(b0 :: rest) =>
    if suf.length ≤ 100 then none
    else
      let hit : Bool :=
        b0 == 0x30 && (suf.getD 1 0 == 0x82 || suf.getD 1 0 == 0x83)
      if hit then
        let numLengthBytes := suf.getD 1 0 &&& 0x7F
        let certLength := beAccum suf 2 numLengthBytes
        let lengthOffset := 2 + numLengthBytes
        if certLength < 400 ∨ 10000 < certLength then strategy2Go rest
        else if suf.length < lengthOffset + certLength.toNat then strategy2Go rest
        else
          let slice := suf.take (lengthOffset + certLength.toNat)
          match fromDer slice with
          | .ok a =>
            if a.valueIsArray ∧ 3 ≤ a.valueLen then some slice else strategy2Go rest
          | .error _ => strategy2Go rest
      else strategy2Go rest

/-- Translation of `PDFCertificateExtractor.extractCertificateByPattern`
(part_006 lines 201-528): strategy 0 (the direct scan) tests its candidates
for Aadhaar data and falls back to the first candidate; with no strategy-0
candidate, strategy 1 (the `0xA0` section walk) and then strategy 2 (the
relaxed direct scan) run, and exhaustion of all three is the
`Could not find valid certificate` failure. -/
def extractCertificateByPattern (bin : List Nat) : Except JsErr (List Nat) :=
  match scanForCertificates bin with
  | c0 :: rest =>
    match findAadhaarCert (c0 :: rest) with
    | some b => .ok b
    | none => .ok c0.raw
  | [] =>
    match st1Outer bin bin 0 with
    | some r => .ok r
    | none =>
      match strategy2Go bin with
      | some r => .ok r
      | none => .error .patternNoCert

/-- The structure navigation of `extractCertificateFromASN1` (part_006 lines
161-186), translated literally: a UNIVERSAL SEQUENCE field is searched for a
child with `tagClass === 2` — a value no parsed node carries, node-forge tag
classes being 0, 0x40, 0x80 and 0xC0 — whose first grandchild would be
re-serialized. -/
def navFindCertificate (a : Asn1) : Option (List Nat) :=
  match a with
  | .cons _ _ _ fields =>
    fields.findSome? (fun field =>
      if field.tagClassOf == 0 && field.typOf == 16 && field.valueIsArray then
        field.childrenOf.findSome? (fun sub =>
          if sub.tagClassOf == 2 && sub.typOf == 0 && sub.valueIsArray then
            match sub.childrenOf.head? with
            | some c0 => some (toDerBytes c0)
            | none => none
          else none)
      else none)
  | .prim _ _ _ _ => none

/-- Translation of `PDFCertificateExtractor.extractCertificateFromASN1`
(part_006 lines 127-193): a DER parse failure diverts to the byte-pattern
fallback exactly when its message carries `Unparsed DER bytes`; a successful
parse walks the structure (never finding the `tagClass === 2` certificates
field) and otherwise fails. -/
def extractCertificateFromASN1 (bin : List Nat) : Except JsErr (List Nat) :=
  match fromDer bin with
  | .error e =>
    if errIncludesUnparsed (.der e) then extractCertificateByPattern bin
    else .error (.der e)
  | .ok a =>
    match navFindCertificate a with
    | some certDer => .ok certDer
    | none => .error .asn1NoCertFound

/-- Translation of `PDFCertificateExtractor.extractCertificateFromPKCS7`
(part_006 lines 90-120): the strict PKCS#7 route returns the first
certificate re-serialized; any failure inside it diverts to the direct
ASN.1 route; a successful PKCS#7 parse without certificates is the
`No certificates found in signature` failure. -/
def extractCertificateFromPKCS7 (bin : List Nat) : Except JsErr (List Nat) :=
  match fromDer bin with
  | .error _ => extractCertificateFromASN1 bin
  | .ok a =>
    match messageFromAsn1 a with
    | .error _ => extractCertificateFromASN1 bin
    | .ok p7 =>
      match p7.certificates with
      | cert :: _ => .ok (toDerBytes cert.rebuilt)
      | [] => .error .noCertsInSignature

/-! ## Signature location: the textual patterns

The seven regular expressions of analyzePdf.js (lines 34-70) and the single
`/Contents` pattern of part_006 line 19 are deterministic up to their greedy
`[\s\S]{0,n}` windows; each is translated to an anchored matcher, and
`matchAll` with the `g` flag to a leftmost scan resuming at each match
end. -/

/-- Literal match at the head of the input, returning the rest. -/
def dropLit (lit s : JStr) : Option JStr :=
  if lit.isPrefixOf s then some (s.drop lit.length) else none

/-- Anchored matcher for `\/Contents\s*<([0-9A-Fa-f]+)>`: the result is the
consumed length and the captured hex group. -/
def tryContentsHex (s : JStr) : Option (Nat × JStr) :=
  match dropLit "/Contents".toList s with
  | none => none
  | some r1 =>
    let sp := r1.takeWhile isRegexSpace
    match r1.drop sp.length with
    | '<' :: r3 =>
      let ds := r3.takeWhile isHexDigitJs
      if ds.isEmpty then none
      else
        match r3.drop ds.length with
        | '>' :: _ => some (9 + sp.length + 1 + ds.length + 1, ds)
        | _ => none
    | _ => none

/-- Anchored matcher for `\/Contents\s+(\d+)\s+(\d+)\s+R`; the reported data
is the `N M R` reference text the analyzer builds from the two groups. -/
def tryContentsIndirect (s : JStr) : Option (Nat × JStr) :=
  match dropLit "/Contents".toList s with
  | none => none
  | some r1 =>
    let sp1 := r1.takeWhile isRegexSpace
    if sp1.isEmpty then none
    else
      let r2 := r1.drop sp1.length
      let d1 := r2.takeWhile isDecDigit
      if d1.isEmpty then none
      else
        let r3 := r2.drop d1.length
        let sp2 := r3.takeWhile isRegexSpace
        if sp2.isEmpty then none
        else
          let r4 := r3.drop sp2.length
          let d2 := r4.takeWhile isDecDigit
          if d2.isEmpty then none
          else
            let r5 := r4.drop d2.length
            let sp3 := r5.takeWhile isRegexSpace
            if sp3.isEmpty then none
            else
              match r5.drop sp3.length with
              | 'R' :: _ =>
                some (9 + sp1.length + d1.length + sp2.length + d2.length + sp3.length + 1,
                      d1 ++ [' '] ++ d2 ++ [' ', 'R'])
              | _ => none

/-- Greedy `[\s\S]{0,maxW}` window followed by a tail matcher: the largest
skip that lets the tail match wins, as for a backtracking greedy
quantifier. -/
def greedyWindow (maxW : Nat) (s : JStr) (tailM : JStr → Option (Nat × JStr)) :
    Option (Nat × JStr) :=
  (List.range (min maxW s.length + 1)).reverse.findSome?
    (fun k => (tailM (s.drop k)).map (fun p => (k + p.1, p.2)))

/-- Anchored matcher for
`\/ByteRange\s*\[([^\]]+)\][\s\S]{0,500}\/Contents\s*<([0-9A-Fa-f]+)>`
(the analyzer extracts the hex group). -/
def tryByteRange (s : JStr) : Option (Nat × JStr) :=
  match dropLit "/ByteRange".toList s with
  | none => none
  | some r1 =>
    let sp := r1.takeWhile isRegexSpace
    match r1.drop sp.length with
    | '[' :: r3 =>
      let inner := r3.takeWhile (fun c => c ≠ ']')
      if inner.isEmpty then none
      else
        match r3.drop inner.length with
        | ']' :: r5 =>
          (greedyWindow 500 r5 tryContentsHex).map
            (fun p => (10 + sp.length + 1 + inner.length + 1 + p.1, p.2))
        | _ => none
    | _ => none

/-- Anchored matcher for a literal marker, a greedy window of up to `w`
arbitrary characters, and a `/Contents` hex blob — the common shape of the
`/Type /Sig`, PKCS#7 and Aadhaar subfilter patterns. -/
def tryMarkerThenContents (lit1 : JStr) (lit2 : JStr) (w : Nat) (s : JStr) :
    Option (Nat × JStr) :=
  match dropLit lit1 s with
  | none => none
  | some r1 =>
    let sp := r1.takeWhile isRegexSpace
    match dropLit lit2 (r1.drop sp.length) with
    | none => none
    | some r2 =>
      (greedyWindow w r2 tryContentsHex).map
        (fun p => (lit1.length + sp.length + lit2.length + p.1, p.2))

/-- The leftmost-scan `matchAll` driver: at each position the anchored
matcher is tried; a match is recorded and the scan resumes at its end (an
empty match would advance by one, as the `g`-flag `lastIndex` bump does). -/
def matchAllGo (tryM : JStr → Option (Nat × JStr)) :
    Nat → JStr → Nat → List (Nat × JStr)
  | 0, _, _ => []
  | fuel + 1, s, i =>
    match s with
    | [] => []
    | c :: rest =>
      match tryM (c :: rest) with
      | some (len, d) =>
        if 0 < len then
          (i, d) :: matchAllGo tryM fuel ((c :: rest).drop len) (i + len)
        else (i, d) :: matchAllGo tryM fuel rest (i + 1)
      | none => matchAllGo tryM fuel rest (i + 1)

/-- The scan of a whole string: the fuel bounds the number of scan steps and
each step consumes at least one character, so the string's length is always
enough and the scan runs to the end of the input. -/
def matchAll (tryM : JStr → Option (Nat × JStr)) (s : JStr) : List (Nat × JStr) :=
  matchAllGo tryM s.length s 0


/-- The seven signature patterns of analyzePdf.js, in array order. -/
inductive PatternTag where
  | standardContents
  | indirectReference
  | byteRangeContents
  | sigDictionary
  | pkcs7Detached
  | pkcs7Sha1
  | aadhaarEsign
deriving DecidableEq

/-- Position of a pattern in the analyzer's `patterns` array. -/
def patternIdx : PatternTag → Nat
  | .standardContents => 0
  | .indirectReference => 1
  | .byteRangeContents => 2
  | .sigDictionary => 3
  | .pkcs7Detached => 4
  | .pkcs7Sha1 => 5
  | .aadhaarEsign => 6

/-- The matcher of each pattern (analyzePdf.js lines 34-70). -/
def patMatcher : PatternTag → JStr → Option (Nat × JStr)
  | .standardContents => tryContentsHex
  | .indirectReference => tryContentsIndirect
  | .byteRangeContents => tryByteRange
  | .sigDictionary => tryMarkerThenContents "/Type".toList "/Sig".toList 1000
  | .pkcs7Detached =>
    tryMarkerThenContents "/SubFilter".toList "/adbe.pkcs7.detached".toList 1000
  | .pkcs7Sha1 =>
    tryMarkerThenContents "/SubFilter".toList "/adbe.pkcs7.sha1".toList 1000
  | .aadhaarEsign =>
    tryMarkerThenContents "/SubFilter".toList "/ETSI.CAdES.detached".toList 1000

/-- An entry of the analyzer's `foundSignatures` array: the matching
pattern, the extracted data (a hex blob or an `N M R` reference text) and
the match position.  The printed byte size is `data.length / 2` for an
all-hex datum and is derived, not stored. -/
structure SigFound where
  pattern : PatternTag
  data : JStr
  position : Nat
deriving DecidableEq

/-- The pattern list in its analyzePdf.js array order. -/
def locatorPatterns : List PatternTag :=
  [.standardContents, .indirectReference, .byteRangeContents, .sigDictionary,
   .pkcs7Detached, .pkcs7Sha1, .aadhaarEsign]

/-- Translation of the signature scan loop of analyzePdf.js (lines 72-99):
patterns run in array order, each contributing all of its matches in
position order. -/
def locatorScan (pdfString : JStr) : List SigFound :=
  locatorPatterns.flatMap
    (fun p => (matchAll (patMatcher p) pdfString).map
      (fun m => ⟨p, m.2, m.1⟩))

/-! ## The document pipeline -/

/-- The `/Contents` hex groups of the extraction pipeline (part_006 lines
19-20), in match order. -/
def contentsMatches (pdfString : JStr) : List JStr :=
  (matchAll tryContentsHex pdfString).map (·.2)

/-- The signature loop of `extractCertificateFromPDF` (part_006 lines
31-73): the first signature whose extracted certificate parses to a record
with Aadhaar data returns that certificate; extraction and parse failures
move to the next signature. -/
def findQualifyingSig : List JStr → Option (List Nat)
  | [] => none
  | h :: rest =>
    match extractCertificateFromPKCS7 (hexToBytes h) with
    | .ok cert =>
      match parseCertificateFromBuffer cert with
      | .ok d => if hasAadhaarData d then some cert else findQualifyingSig rest
      | .error _ => findQualifyingSig rest
    | .error _ => findQualifyingSig rest

/-- Translation of `PDFCertificateExtractor.extractCertificateFromPDF`
(part_006 lines 13-83): no `/Contents` match is the `No signature found`
failure; otherwise the qualifying-signature loop runs, and if it finds
nothing the FIRST match is re-extracted unconditionally — including
re-raising its extraction failure. -/
def extractCertificateFromPDF (pdfBuffer : List Nat) : Except JsErr (List Nat) :=
  let pdfString := latin1Str pdfBuffer
  match contentsMatches pdfString with
  | [] => .error .noSignatureFound
  | m0 :: rest =>
    match findQualifyingSig (m0 :: rest) with
    | some cert => .ok cert
    | none => extractCertificateFromPKCS7 (hexToBytes m0)

/-- Translation of `BatchPdfProcessor.processSinglePDF` (part_000 lines
56-109), the full-document entry point the specification calls
`extractIdentityFromDocument`: the PDF magic check runs before anything
else, then certificate extraction, then the certificate parse. -/
def extractIdentityFromDocument (pdfBuffer : List Nat) : Except JsErr AadhaarDetails :=
  if ¬ isPDF pdfBuffer then .error .notAPdf
  else
    match extractCertificateFromPDF pdfBuffer with
    | .error e => .error e
    | .ok cert => parseCertificateFromBuffer cert


/-! ## Shared lemmas about the JavaScript parse primitives -/

theorem isDecDigit_not_white {c : Char} (h : isDecDigit c = true) : isJsWhite c = false := by
  simp only [isDecDigit, decide_eq_true_eq] at h
  simp only [isJsWhite, decide_eq_false_iff_not]
  omega

theorem isDecDigit_ne_minus {c : Char} (h : isDecDigit c = true) : ¬ c = '-' := by
  rintro rfl
  simp [isDecDigit] at h

theorem isDecDigit_ne_plus {c : Char} (h : isDecDigit c = true) : ¬ c = '+' := by
  rintro rfl
  simp [isDecDigit] at h

theorem isDecDigit_ne_x {c : Char} (h : isDecDigit c = true) : ¬ (c = 'x' ∨ c = 'X') := by
  rintro (rfl | rfl) <;> simp [isDecDigit] at h

theorem jsParseSign_digit {c : Char} (r : JStr) (h : isDecDigit c = true) :
    jsParseSign (c :: r) = (1, c :: r) := by
  have h1 := isDecDigit_ne_minus h
  have h2 := isDecDigit_ne_plus h
  simp [jsParseSign, h1, h2]

theorem jsParseRadix_digits (t2 : JStr) (hall : ∀ c ∈ t2, isDecDigit c = true) :
    jsParseRadix 0 t2 = (10, t2) := by
  cases t2 with
  | nil => simp [jsParseRadix]
  | cons c0 r =>
    cases r with
    | nil => simp [jsParseRadix]
    | cons c1 r2 =>
      have h0 : ¬ (c0 = '0' ∧ (c1 = 'x' ∨ c1 = 'X')) := by
        rintro ⟨-, hx⟩
        exact isDecDigit_ne_x (hall c1 (by simp)) hx
      simp [jsParseRadix, h0]

theorem dropWhile_white_digit {c : Char} (r : JStr) (h : isDecDigit c = true) :
    (c :: r).dropWhile isJsWhite = c :: r := by
  simp [List.dropWhile_cons, isDecDigit_not_white h]

theorem takeWhile_digits (t : JStr) (hall : ∀ c ∈ t, isDecDigit c = true) :
    t.takeWhile (isRadixDigit 10) = t := by
  apply List.takeWhile_eq_self_iff.mpr
  intro a ha
  simpa [isRadixDigit] using hall a ha

/-- A non-empty all-digit input makes the digit-run step succeed with the
full decimal value. -/
theorem jsParseIntTail_digits (sgn : Int) (t : JStr) (hne : t ≠ [])
    (hall : ∀ c ∈ t, isDecDigit c = true) :
    jsParseIntTail sgn (10, t) = some (sgn * (digitsVal 10 t : Int)) := by
  unfold jsParseIntTail
  simp only
  rw [takeWhile_digits t hall]
  simp [hne]

/-- A non-empty all-digit string parses under the JavaScript default radix
to its decimal value. -/
theorem jsParseInt_digits (s : JStr) (hne : s ≠ [])
    (hd : ∀ c ∈ s, isDecDigit c = true) :
    jsParseInt 0 s = some ((digitsVal 10 s : Nat) : Int) := by
  obtain ⟨c, r, rfl⟩ : ∃ c r, s = c :: r := by
    cases s with
    | nil => exact absurd rfl hne
    | cons c r => exact ⟨c, r, rfl⟩
  have h1 := dropWhile_white_digit r (hd c (by simp))
  have h2 := jsParseSign_digit r (hd c (by simp))
  have h3 := jsParseRadix_digits (c :: r) hd
  simp only [jsParseInt, h1, h2, h3]
  rw [jsParseIntTail_digits 1 (c :: r) (by simp) hd]
  simp

/-- A strict integer numeral is parsed identically by JavaScript `parseInt`
without a radix. -/
theorem strictIntParse_js_agree (s : JStr) (n : Int)
    (h : strictIntParse s = some n) : jsParseInt 0 s = some n := by
  cases s with
  | nil => simp [strictIntParse] at h
  | cons c r =>
    by_cases hm : c = '-'
    · subst hm
      rw [strictIntParse, if_pos rfl] at h
      split at h
      · rename_i hcond
        obtain ⟨hne, hall⟩ := hcond
        rw [List.all_eq_true] at hall
        replace hall : ∀ x ∈ r, isDecDigit x = true := fun x hx => hall x hx
        obtain ⟨c0, r0, rfl⟩ : ∃ c0 r0, r = c0 :: r0 := by
          cases r with
          | nil => exact absurd rfl hne
          | cons c0 r0 => exact ⟨c0, r0, rfl⟩
        injection h with h2
        unfold jsParseInt
        have hdrop : ('-' :: c0 :: r0).dropWhile isJsWhite = '-' :: c0 :: r0 := by
          simp [List.dropWhile_cons, isJsWhite]
        have hsgn : jsParseSign ('-' :: c0 :: r0) = (-1, c0 :: r0) := rfl
        simp only [hdrop, hsgn, jsParseRadix_digits (c0 :: r0) hall]
        rw [jsParseIntTail_digits (-1) (c0 :: r0) (by simp) hall]
        simp [← h2]
      · exact absurd h (by simp)
    · by_cases hp : c = '+'
      · subst hp
        rw [strictIntParse, if_neg (by decide), if_pos rfl] at h
        split at h
        · rename_i hcond
          obtain ⟨hne, hall⟩ := hcond
          rw [List.all_eq_true] at hall
          replace hall : ∀ x ∈ r, isDecDigit x = true := fun x hx => hall x hx
          obtain ⟨c0, r0, rfl⟩ : ∃ c0 r0, r = c0 :: r0 := by
            cases r with
            | nil => exact absurd rfl hne
            | cons c0 r0 => exact ⟨c0, r0, rfl⟩
          injection h with h2
          unfold jsParseInt
          have hdrop : ('+' :: c0 :: r0).dropWhile isJsWhite = '+' :: c0 :: r0 := by
            simp [List.dropWhile_cons, isJsWhite]
          have hsgn : jsParseSign ('+' :: c0 :: r0) = (1, c0 :: r0) := rfl
          simp only [hdrop, hsgn, jsParseRadix_digits (c0 :: r0) hall]
          rw [jsParseIntTail_digits 1 (c0 :: r0) (by simp) hall]
          simp [← h2]
        · exact absurd h (by simp)
      · rw [strictIntParse, if_neg hm, if_neg hp] at h
        split at h
        · rename_i hcond
          rw [List.all_eq_true] at hcond
          injection h with h2
          rw [jsParseInt_digits (c :: r) (by simp) (fun x hx => hcond x hx)]
          simp [← h2]
        · exact absurd h (by simp)

/-- A strict parse implies the string is non-empty. -/
theorem strictIntParse_ne_nil {s : JStr} {n : Int}
    (h : strictIntParse s = some n) : s ≠ [] := by
  rintro rfl
  simp [strictIntParse] at h

/-- A strict parse succeeds on the JavaScript side with the same value and a
non-empty, hence truthy, input string. -/
theorem getPinCode_strict (s : JStr) (n : Int) (h : strictIntParse s = some n) :
    getPinCode (some s) = (if 0 < n then s else NAstr) := by
  have hjs := strictIntParse_js_agree s n h
  have hne := strictIntParse_ne_nil h
  have ht : jsTruthy s = true := by
    simp [jsTruthy, hne]
  simp [getPinCode, ht, hjs]

/-- Claim C5: a buffer whose first five bytes are not the `%PDF-` magic
makes `extractIdentityFromDocument` fail with the not-a-PDF error before any
signature scanning or decoding — the equation holds for every such buffer,
whatever its remaining content. -/
theorem c5_notapdf_short_circuit (buffer : List Nat)
    (h : buffer.take 5 ≠ pdfMagic) :
    extractIdentityFromDocument buffer = .error .notAPdf := by
  unfold extractIdentityFromDocument
  simp [isPDF, h]

/-- Witness for C5 at the concrete five-byte buffer `[0, 1, 2, 3, 4]`. -/
theorem c5_notapdf_short_circuit_witness :
    [0, 1, 2, 3, 4].take 5 ≠ pdfMagic ∧
      extractIdentityFromDocument [0, 1, 2, 3, 4] = .error .notAPdf :=
  ⟨by decide, c5_notapdf_short_circuit [0, 1, 2, 3, 4] (by decide)⟩

/-- Claim C10 counterexample: the input `12ab` is not an integer numeral, so
the claim requires `NA`, yet `getPinCode` returns it unchanged — JavaScript
`parseInt` reads the positive prefix `12`.  (`3.7` behaves the same way.) -/
theorem c10_pincode_counterexample :
    strictIntParse ['1', '2', 'a', 'b'] = none ∧
      getPinCode (some ['1', '2', 'a', 'b']) = ['1', '2', 'a', 'b'] ∧
      getPinCode (some ['3', '.', '7']) = ['3', '.', '7'] ∧
      ['1', '2', 'a', 'b'] ≠ NAstr := by
  refine ⟨by decide, by decide, by decide, by decide⟩

/-- Claim C10 (amended): a value that is a strict positive integer numeral
is returned unchanged, a strict non-positive numeral or a value without any
parseable integer prefix yields `NA`; but acceptance is governed by the
JavaScript `parseInt` prefix read, so non-numeral values with a positive
prefix (such as `12ab`) are also returned.  The concrete anchors of the
claim all hold. -/
theorem c10_pincode_amended :
    (∀ (s : JStr) (n : Int), strictIntParse s = some n → 0 < n →
      getPinCode (some s) = s) ∧
    (∀ (s : JStr) (n : Int), strictIntParse s = some n → n ≤ 0 →
      getPinCode (some s) = NAstr) ∧
    (∀ s : JStr, jsParseInt 0 s = none → getPinCode (some s) = NAstr) ∧
    getPinCode (some ("560001".toList)) = "560001".toList ∧
    getPinCode (some ['0']) = NAstr ∧
    getPinCode (some ['-', '5']) = NAstr ∧
    getPinCode (some ("abc".toList)) = NAstr ∧
    getPinCode none = NAstr := by
  refine ⟨?_, ?_, ?_, by decide, by decide, by decide, by decide, by decide⟩
  · intro s n h hpos
    rw [getPinCode_strict s n h, if_pos hpos]
  · intro s n h hnp
    rw [getPinCode_strict s n h, if_neg (by omega)]
  · intro s hnone
    unfold getPinCode
    by_cases ht : jsTruthy s = true
    · simp [ht, hnone]
    · simp [Bool.not_eq_true] at ht
      simp [ht]

/-- Witness for C10 (amended) at the concrete numeral `7`. -/
theorem c10_pincode_amended_witness :
    strictIntParse ['7'] = some 7 ∧ getPinCode (some ['7']) = ['7'] :=
  ⟨by decide, c10_pincode_amended.1 ['7'] 7 (by decide) (by decide)⟩

/-- Claim C6 counterexample: at the SEQUENCE-length call site of strategy 1,
the single length byte `0x80` (indefinite form) decodes to exactly the same
result `(0, 2)` as the definite zero length `0x00` — the two are not
distinguished there, against the claim's `at every call site`. -/
theorem c6_seq_indefinite_counterexample :
    seqLenDecode [0x30, 0x80] 0 = (0, 2) ∧
      seqLenDecode [0x30, 0x00] 0 = (0, 2) := by
  refine ⟨by decide, by decide⟩

/-- One accumulation step on a small non-negative value is plain base-256
accumulation (no 32-bit wrap). -/
theorem jsShl8Or_small (acc : Int) (b : Nat) (h0 : 0 ≤ acc)
    (h1 : acc < 8388608) (h2 : b < 256) :
    jsShl8Or acc b = acc * 256 + b := by
  unfold jsShl8Or toInt32
  simp only []
  split_ifs <;> omega

/-- Two-byte big-endian accumulation of byte values stays below the 32-bit
wrap. -/
theorem beAccum_two (bytes : List Nat) (p : Nat)
    (h2 : bytes.getD p 0 < 256) (h3 : bytes.getD (p + 1) 0 < 256) :
    beAccum bytes p 2 =
      ((bytes.getD p 0 * 256 + bytes.getD (p + 1) 0 : Nat) : Int) := by
  unfold beAccum
  rw [show List.range 2 = [0, 1] from by decide]
  rw [List.foldl_cons, List.foldl_cons, List.foldl_nil, Nat.add_zero]
  rw [jsShl8Or_small 0 _ le_rfl (by omega) h2]
  have hb : (0 : Int) * 256 + ((bytes.getD p 0 : Nat) : Int) =
      ((bytes.getD p 0 : Nat) : Int) := by ring
  rw [hb]
  have hc1 : (0 : Int) ≤ ((bytes.getD p 0 : Nat) : Int) := Int.natCast_nonneg _
  have hc2 : ((bytes.getD p 0 : Nat) : Int) < 8388608 := by
    exact_mod_cast (by omega : bytes.getD p 0 < 8388608)
  rw [jsShl8Or_small _ _ hc1 hc2 h3]
  push_cast
  ring

/-- Claim C6 (amended): the `0xA0`-section call site does report the single
byte `0x80` as the indefinite form, scanning to the end of the buffer; the
SEQUENCE call site instead folds `0x80` into a zero-length long form, which
is indistinguishable from a definite zero; and multi-byte long-form lengths
decode big-endian (`0x82 b1 b2` to `256*b1 + b2`; in particular
`0x82 0x01 0x23` to `0x123`). -/
theorem c6_tag_length_amended :
    (∀ (bytes : List Nat) (pos : Nat), bytes.getD pos 0 = 0x80 →
      a0SectionDecode bytes pos = ((bytes.length : Int) - ((pos + 1 : Nat) : Int), pos + 1)) ∧
    (∀ (bytes : List Nat) (pos : Nat), bytes.getD (pos + 1) 0 = 0x80 →
      seqLenDecode bytes pos = (0, 2)) ∧
    (∀ (bytes : List Nat) (pos : Nat), bytes.getD (pos + 1) 0 = 0x82 →
      bytes.getD (pos + 2) 0 < 256 → bytes.getD (pos + 3) 0 < 256 →
      seqLenDecode bytes pos =
        (((bytes.getD (pos + 2) 0 * 256 + bytes.getD (pos + 3) 0 : Nat) : Int), 4)) ∧
    seqLenDecode [0x30, 0x82, 0x01, 0x23] 0 = (0x123, 4) := by
  refine ⟨?_, ?_, ?_, by decide⟩
  · intro bytes pos h
    unfold a0SectionDecode
    rw [h]
    simp
  · intro bytes pos h
    unfold seqLenDecode
    rw [h]
    rw [if_pos (by decide), show (128 : Nat) &&& 127 = 0 from by decide]
    simp [beAccum]
  · intro bytes pos h h2 h3
    unfold seqLenDecode
    rw [h]
    rw [if_pos (by decide), show (130 : Nat) &&& 127 = 2 from by decide]
    show (beAccum bytes (pos + 2) 2, 2 + 2) = _
    rw [beAccum_two bytes (pos + 2) (by simpa using h2) (by simpa using h3)]

/-- Witness for C6 (amended) at concrete buffers exercising each
hypothesis. -/
theorem c6_tag_length_amended_witness :
    a0SectionDecode [0xA0, 0x80, 1, 2] 1 = (2, 2) ∧
      seqLenDecode [0x30, 0x80, 9] 0 = (0, 2) ∧
      seqLenDecode [0x30, 0x82, 0x02, 0x10] 0 = (528, 4) := by
  refine ⟨?_, ?_, ?_⟩
  · have := c6_tag_length_amended.1 [0xA0, 0x80, 1, 2] 1 (by decide)
    simpa using this
  · exact c6_tag_length_amended.2.1 [0x30, 0x80, 9] 0 (by decide)
  · have := c6_tag_length_amended.2.2.1 [0x30, 0x82, 0x02, 0x10] 0 (by decide)
      (by decide) (by decide)
    simpa using this

/-! ## Claim C9: the qualifier decoders -/

theorem digitVal_lt_ten {c : Char} (h : isDecDigit c = true) : digitVal c < 10 := by
  simp only [isDecDigit, decide_eq_true_eq] at h
  unfold digitVal
  split_ifs <;> omega

theorem digitVal_lt_sixteen {c : Char} (h : isHexDigitJs c = true) : digitVal c < 16 := by
  simp only [isHexDigitJs, decide_eq_true_eq] at h
  unfold digitVal
  split_ifs <;> omega

/-- The folded digit accumulation is bounded by the radix power. -/
theorem foldl_digits_lt (radix : Nat) : ∀ (ds : List Char) (acc B : Nat),
    (∀ c ∈ ds, digitVal c < radix) → acc < B →
    ds.foldl (fun a c => a * radix + digitVal c) acc < B * radix ^ ds.length
  | [], acc, B, _, h => by simpa
  | c :: t, acc, B, hd, h => by
    have hc : digitVal c < radix := hd c (by simp)
    have hstep : acc * radix + digitVal c < B * radix := by
      calc acc * radix + digitVal c < acc * radix + radix := by omega
        _ = (acc + 1) * radix := by ring
        _ ≤ B * radix := Nat.mul_le_mul_right _ h
    have hrec := foldl_digits_lt radix t (acc * radix + digitVal c) (B * radix)
      (fun x hx => hd x (by simp [hx])) hstep
    rw [List.foldl_cons]
    refine lt_of_lt_of_eq hrec ?_
    rw [List.length_cons]
    ring

/-- Value bound for a digit run. -/
theorem digitsVal_lt (radix : Nat) (ds : List Char)
    (hd : ∀ c ∈ ds, digitVal c < radix) :
    digitsVal radix ds < radix ^ ds.length := by
  have := foldl_digits_lt radix ds 0 1 hd (by omega)
  simpa [digitsVal] using this

/-- Bound for the digit run the parse tail extracts. -/
theorem takeWhile_digitsVal_lt (radix : Nat) (hr : radix = 10 ∨ radix = 16)
    (t : JStr) :
    digitsVal radix (t.takeWhile (isRadixDigit radix)) <
      radix ^ (t.takeWhile (isRadixDigit radix)).length := by
  apply digitsVal_lt
  intro c hc
  have hp := List.mem_takeWhile_imp hc
  rcases hr with rfl | rfl
  · exact digitVal_lt_ten (by simpa [isRadixDigit] using hp)
  · exact digitVal_lt_sixteen (by simpa [isRadixDigit] using hp)

/-- Case split for the sign step. -/
theorem jsParseSign_cases (t : JStr) :
    (∃ r, t = '-' :: r ∧ jsParseSign t = (-1, r)) ∨
    (∃ r, t = '+' :: r ∧ jsParseSign t = (1, r)) ∨
    jsParseSign t = (1, t) := by
  match t with
  | [] => right; right; rfl
  | c :: r =>
    by_cases h1 : c = '-'
    · exact Or.inl ⟨r, by rw [h1], by subst h1; rfl⟩
    · by_cases h2 : c = '+'
      · exact Or.inr (Or.inl ⟨r, by rw [h2], by subst h2; rfl⟩)
      · right; right; simp [jsParseSign, h1, h2]

/-- Case split for the default-radix step. -/
theorem jsParseRadix0_cases (t2 : JStr) :
    jsParseRadix 0 t2 = (10, t2) ∨
    ∃ c1 r, t2 = '0' :: c1 :: r ∧ jsParseRadix 0 t2 = (16, r) := by
  match t2 with
  | [] => left; rfl
  | [c] => left; rfl
  | c0 :: c1 :: r =>
    by_cases h : c0 = '0' ∧ (c1 = 'x' ∨ c1 = 'X')
    · obtain ⟨h1, h2⟩ := h
      subst h1
      rcases h2 with rfl | rfl
      · exact Or.inr ⟨'x', r, rfl, by simp [jsParseRadix]⟩
      · exact Or.inr ⟨'X', r, rfl, by simp [jsParseRadix]⟩
    · left
      simp [jsParseRadix, h]

/-- The digit-run step yields at most the radix power of the input length. -/
theorem jsParseIntTail_bound (sgn : Int) (radix : Nat) (t : JStr) (n : Int)
    (hr : radix = 10 ∨ radix = 16) (hsgn : sgn = 1)
    (h : jsParseIntTail sgn (radix, t) = some n) :
    n < ((radix ^ t.length : Nat) : Int) := by
  subst hsgn
  unfold jsParseIntTail at h
  simp only at h
  split at h
  · exact absurd h (by simp)
  · injection h with h2
    have hb := takeWhile_digitsVal_lt radix hr t
    have hlen : (t.takeWhile (isRadixDigit radix)).length ≤ t.length :=
      (List.takeWhile_prefix _).length_le
    have hrp : 2 ≤ radix := by rcases hr with rfl | rfl <;> omega
    have hpow : radix ^ (t.takeWhile (isRadixDigit radix)).length ≤ radix ^ t.length :=
      Nat.pow_le_pow_right (by omega) hlen
    have : digitsVal radix (t.takeWhile (isRadixDigit radix)) < radix ^ t.length := by
      omega
    rw [← h2]
    have hcast : ((digitsVal radix (t.takeWhile (isRadixDigit radix)) : Nat) : Int) <
        ((radix ^ t.length : Nat) : Int) := by exact_mod_cast this
    calc 1 * ((digitsVal radix (t.takeWhile (isRadixDigit radix)) : Nat) : Int)
        = ((digitsVal radix (t.takeWhile (isRadixDigit radix)) : Nat) : Int) := by ring
      _ < ((radix ^ t.length : Nat) : Int) := hcast

/-- A negative-sign parse never exceeds zero. -/
theorem jsParseIntTail_neg (q : Nat × JStr) (n : Int)
    (h : jsParseIntTail (-1) q = some n) : n ≤ 0 := by
  unfold jsParseIntTail at h
  simp only at h
  split at h
  · exact absurd h (by simp)
  · injection h with h2
    have : (0 : Int) ≤ ((digitsVal q.1 (q.2.takeWhile (isRadixDigit q.1)) : Nat) : Int) :=
      Int.natCast_nonneg _
    omega

/-- Under the JavaScript default radix, a four-character string parsing to a
value above 1900 must consist of four decimal digits, whose plain decimal
value is that result: whitespace, a sign or a hex prefix would leave too few
digits to exceed 1900. -/
theorem jsParseInt_year (s : JStr) (hlen : s.length = 4) (n : Int)
    (h : jsParseInt 0 s = some n) (hn : 1900 < n) :
    (∀ c ∈ s, isDecDigit c = true) ∧ n = ((digitsVal 10 s : Nat) : Int) := by
  have hdsub : (s.dropWhile isJsWhite).Sublist s := List.dropWhile_sublist _
  have hdlen : (s.dropWhile isJsWhite).length ≤ 4 := hlen ▸ hdsub.length_le
  simp only [jsParseInt] at h
  rcases jsParseSign_cases (s.dropWhile isJsWhite) with ⟨r, hts, hsgn⟩ | ⟨r, hts, hsgn⟩ | hsgn
  · rw [hsgn] at h
    simp only at h
    exact absurd (jsParseIntTail_neg _ n h) (by omega)
  · rw [hsgn] at h
    simp only at h
    have hrlen : r.length ≤ 3 := by
      rw [hts] at hdlen
      simpa using hdlen
    rcases jsParseRadix0_cases r with hq | ⟨c1, r2, hr2, hq⟩
    · rw [hq] at h
      have hbI := jsParseIntTail_bound 1 10 r n (Or.inl rfl) rfl h
      have hb : (10 : Nat) ^ r.length ≤ 1000 := by
        calc (10 : Nat) ^ r.length ≤ 10 ^ 3 := Nat.pow_le_pow_right (by omega) hrlen
          _ = 1000 := by norm_num
      have : n < (1000 : Int) := lt_of_lt_of_le hbI (by exact_mod_cast hb)
      omega
    · rw [hq] at h
      have hr2len : r2.length ≤ 1 := by
        rw [hr2] at hrlen
        simpa using hrlen
      have hbI := jsParseIntTail_bound 1 16 r2 n (Or.inr rfl) rfl h
      have hb : (16 : Nat) ^ r2.length ≤ 16 := by
        calc (16 : Nat) ^ r2.length ≤ 16 ^ 1 := Nat.pow_le_pow_right (by omega) hr2len
          _ = 16 := by norm_num
      have : n < (16 : Int) := lt_of_lt_of_le hbI (by exact_mod_cast hb)
      omega
  · rw [hsgn] at h
    simp only at h
    rcases jsParseRadix0_cases (s.dropWhile isJsWhite) with hq | ⟨c1, r2, hr2, hq⟩
    · rw [hq] at h
      unfold jsParseIntTail at h
      simp only at h
      split at h
      · exact absurd h (by simp)
      · injection h with h2
        have hdslen : ((s.dropWhile isJsWhite).takeWhile (isRadixDigit 10)).length ≤
            (s.dropWhile isJsWhite).length := (List.takeWhile_prefix _).length_le
        have hbound := takeWhile_digitsVal_lt 10 (Or.inl rfl) (s.dropWhile isJsWhite)
        have hnn := hn
        rw [← h2] at hnn
        have hnn2 : 1900 <
            digitsVal 10 ((s.dropWhile isJsWhite).takeWhile (isRadixDigit 10)) := by
          rw [one_mul] at hnn
          exact_mod_cast hnn
        have hds4 : ((s.dropWhile isJsWhite).takeWhile (isRadixDigit 10)).length = 4 := by
          by_contra hne4
          have h3 : ((s.dropWhile isJsWhite).takeWhile (isRadixDigit 10)).length ≤ 3 := by
            omega
          have hb : (10 : Nat) ^
              ((s.dropWhile isJsWhite).takeWhile (isRadixDigit 10)).length ≤ 1000 := by
            calc (10 : Nat) ^ ((s.dropWhile isJsWhite).takeWhile (isRadixDigit 10)).length
                ≤ 10 ^ 3 := Nat.pow_le_pow_right (by omega) h3
              _ = 1000 := by norm_num
          omega
        have hteq : s.dropWhile isJsWhite = s := hdsub.eq_of_length (by omega)
        have hdseq : (s.dropWhile isJsWhite).takeWhile (isRadixDigit 10) =
            s.dropWhile isJsWhite := (List.takeWhile_prefix _).eq_of_length (by omega)
        have hall : ∀ c ∈ s, isDecDigit c = true := by
          intro c hc
          have hcm : c ∈ (s.dropWhile isJsWhite).takeWhile (isRadixDigit 10) := by
            rw [hdseq, hteq]
            exact hc
          have hp := List.mem_takeWhile_imp hcm
          simpa [isRadixDigit] using hp
        refine ⟨hall, ?_⟩
        rw [← h2, hdseq, hteq]
        push_cast
        ring
    · rw [hq] at h
      have hr2len : r2.length ≤ 2 := by
        have := hdlen
        rw [hr2] at this
        simpa using this
      have hbI := jsParseIntTail_bound 1 16 r2 n (Or.inr rfl) rfl h
      have hb : (16 : Nat) ^ r2.length ≤ 256 := by
        calc (16 : Nat) ^ r2.length ≤ 16 ^ 2 := Nat.pow_le_pow_right (by omega) hr2len
          _ = 256 := by norm_num
      have : n < (256 : Int) := lt_of_lt_of_le hbI (by exact_mod_cast hb)
      omega

/-- A nonempty all-digit string reads strictly as its decimal value. -/
theorem strictIntParse_digits (t : JStr) (hne : t ≠ [])
    (hall : ∀ c ∈ t, isDecDigit c = true) :
    strictIntParse t = some ((digitsVal 10 t : Nat) : Int) := by
  match t with
  | [] => exact absurd rfl hne
  | c :: r =>
    have hc := hall c (by simp)
    have hc1 : c ≠ '-' := by
      intro hEq
      rw [hEq] at hc
      exact absurd hc (by decide)
    have hc2 : c ≠ '+' := by
      intro hEq
      rw [hEq] at hc
      exact absurd hc (by decide)
    have hA : (c :: r).all isDecDigit = true := List.all_eq_true.mpr hall
    simp [strictIntParse, hc1, hc2, hA]

/-- Specification-level acceptance test for the year sub-decode: the text
reads strictly as an integer greater than 1900. -/
def specYearOk (t : JStr) : Bool :=
  match strictIntParse t with
  | some n => decide (1900 < n)
  | none => false

/-- On inputs of length at least four, `getBirthYear` returns the first four
characters exactly when they strictly read as an integer above 1900. -/
theorem getBirthYear_spec (s : JStr) (h4 : 4 ≤ s.length) :
    getBirthYear (some s) =
      (if specYearOk (s.take 4) = true then s.take 4 else NAstr) := by
  have hne : s ≠ [] := by
    intro hEq
    rw [hEq] at h4
    simp at h4
  have htruthy : jsTruthy s = true := by
    simp [jsTruthy, hne]
  simp only [getBirthYear]
  rw [if_pos ⟨htruthy, h4⟩]
  cases hp : jsParseInt 0 (s.take 4) with
  | none =>
    have hs : specYearOk (s.take 4) = false := by
      unfold specYearOk
      cases hq : strictIntParse (s.take 4) with
      | none => rfl
      | some m =>
        have hagree := strictIntParse_js_agree _ m hq
        rw [hp] at hagree
        exact absurd hagree (by simp)
    rw [hs]
    simp
  | some n =>
    by_cases h19 : 1900 < n
    · have hlen4 : (s.take 4).length = 4 := by
        rw [List.length_take]
        omega
      obtain ⟨hall, hval⟩ := jsParseInt_year (s.take 4) hlen4 n hp h19
      have hnemp : s.take 4 ≠ [] := by
        intro hEq
        rw [hEq] at hlen4
        simp at hlen4
      have hsp : strictIntParse (s.take 4) = some n := by
        rw [strictIntParse_digits (s.take 4) hnemp hall, hval]
      have hs : specYearOk (s.take 4) = true := by
        unfold specYearOk
        rw [hsp]
        simpa using h19
      rw [hs]
      simp [h19]
    · have hs : specYearOk (s.take 4) = false := by
        unfold specYearOk
        cases hq : strictIntParse (s.take 4) with
        | none => rfl
        | some m =>
          have hagree := strictIntParse_js_agree _ m hq
          rw [hp] at hagree
          injection hagree with hm
          subst hm
          simpa using h19
      rw [hs]
      simp [h19]

/-- On inputs with a fifth character, `getGenderInfo` returns the uppercased
fifth character exactly when it is one of `MmFfTt`. -/
theorem getGenderInfo_spec (s : JStr) (g : Char) (hg : s.get? 4 = some g) :
    getGenderInfo (some s) =
      (if g ∈ ['M', 'm', 'F', 'f', 'T', 't'] then [jsToUpperChar g] else NAstr) := by
  have h5 : 5 ≤ s.length := by
    obtain ⟨hlt, -⟩ := List.get?_eq_some.mp hg
    omega
  have hne : s ≠ [] := by
    intro hEq
    rw [hEq] at h5
    simp at h5
  have htruthy : jsTruthy s = true := by
    simp [jsTruthy, hne]
  simp only [getGenderInfo]
  rw [if_pos ⟨htruthy, h5⟩, hg]

/-- C9: the qualifier decoders are total over optional input: a missing or
shorter-than-four-character qualifier yields `NA` for both fields; with at
least four characters the year is the first four characters exactly when
they read as an integer above 1900 (`specYearOk`), else `NA`; with a fifth
character the gender is that character uppercased exactly when it is one of
`MmFfTt`, else `NA`; gender is `NA` on four-character input, and a
four-character input can still yield a year, so the sub-decodes are
independent. -/
theorem c9_decode_qualifier :
    (getBirthYear none = NAstr ∧ getGenderInfo none = NAstr) ∧
    (∀ s : JStr, s.length < 4 →
      getBirthYear (some s) = NAstr ∧ getGenderInfo (some s) = NAstr) ∧
    (∀ s : JStr, 4 ≤ s.length →
      getBirthYear (some s) =
        (if specYearOk (s.take 4) = true then s.take 4 else NAstr)) ∧
    (∀ (s : JStr) (g : Char), s.get? 4 = some g →
      getGenderInfo (some s) =
        (if g ∈ ['M', 'm', 'F', 'f', 'T', 't'] then [jsToUpperChar g] else NAstr)) ∧
    (∀ s : JStr, s.length = 4 → getGenderInfo (some s) = NAstr) ∧
    (∃ s : JStr, s.length = 4 ∧
      getBirthYear (some s) ≠ NAstr ∧ getGenderInfo (some s) = NAstr) := by
  refine ⟨⟨rfl, rfl⟩, ?_, getBirthYear_spec, getGenderInfo_spec, ?_, ?_⟩
  · intro s hlt
    constructor
    · simp only [getBirthYear]
      rw [if_neg]
      intro hc
      omega
    · simp only [getGenderInfo]
      rw [if_neg]
      intro hc
      omega
  · intro s h4
    simp only [getGenderInfo]
    rw [if_neg]
    intro hc
    omega
  · exact ⟨['1', '9', '9', '0'], by decide, by decide, by decide⟩

/-- Concrete check of the C9 characterization: the year branch accepts
`1990` and rejects `1899M`, and the gender branch uppercases the fifth
character of `1899m`. -/
theorem c9_decode_qualifier_witness :
    getBirthYear (some ['1', '9', '9', '0']) = ['1', '9', '9', '0'] ∧
    getBirthYear (some ['1', '8', '9', '9', 'M']) = NAstr ∧
    getGenderInfo (some ['1', '8', '9', '9', 'm']) = ['M'] ∧
    getGenderInfo (some ['1', '9', '9', '0']) = NAstr := by
  refine ⟨?_, ?_, ?_, ?_⟩
  · rw [c9_decode_qualifier.2.2.1 ['1', '9', '9', '0'] (by decide)]
    decide
  · rw [c9_decode_qualifier.2.2.1 ['1', '8', '9', '9', 'M'] (by decide)]
    decide
  · rw [c9_decode_qualifier.2.2.2.1 ['1', '8', '9', '9', 'm'] 'm' (by decide)]
    decide
  · exact c9_decode_qualifier.2.2.2.2.1 ['1', '9', '9', '0'] (by decide)

/-! ## Claim C7: hex decoding -/

/-- Character facts needed about hex digits: not whitespace, not a sign, not
a radix prefix letter, and accepted by the radix-16 digit test. -/
theorem hexChar_facts (c : Char) (h : isHexDigitJs c = true) :
    isJsWhite c = false ∧ c ≠ '-' ∧ c ≠ '+' ∧ c ≠ 'x' ∧ c ≠ 'X' ∧
      isRadixDigit 16 c = true := by
  refine ⟨?_, ?_, ?_, ?_, ?_, by simp [isRadixDigit, h]⟩
  · have hr : (48 ≤ c.toNat ∧ c.toNat ≤ 57) ∨ (97 ≤ c.toNat ∧ c.toNat ≤ 102) ∨
        (65 ≤ c.toNat ∧ c.toNat ≤ 70) := by
      simpa [isHexDigitJs, decide_eq_true_eq] using h
    simp only [isJsWhite, decide_eq_false_iff_not]
    omega
  · intro hEq
    rw [hEq] at h
    exact absurd h (by decide)
  · intro hEq
    rw [hEq] at h
    exact absurd h (by decide)
  · intro hEq
    rw [hEq] at h
    exact absurd h (by decide)
  · intro hEq
    rw [hEq] at h
    exact absurd h (by decide)

/-- `parseInt(h, 16)` on a two-hex-digit chunk yields the pair value. -/
theorem jsParseInt_hex_pair (c1 c2 : Char)
    (h1 : isHexDigitJs c1 = true) (h2 : isHexDigitJs c2 = true) :
    jsParseInt 16 [c1, c2] = some ((16 * digitVal c1 + digitVal c2 : Nat) : Int) := by
  obtain ⟨hw1, hm1, hp1, _, _, hr1⟩ := hexChar_facts c1 h1
  obtain ⟨_, _, _, hx2, hX2, hr2⟩ := hexChar_facts c2 h2
  have hdrop : [c1, c2].dropWhile isJsWhite = [c1, c2] := by
    simp [List.dropWhile, hw1]
  have hsign : jsParseSign [c1, c2] = (1, [c1, c2]) := by
    simp [jsParseSign, hm1, hp1]
  have hradix : jsParseRadix 16 [c1, c2] = (16, [c1, c2]) := by
    unfold jsParseRadix
    rw [if_pos (Or.inl rfl)]
    simp only []
    rw [if_neg (fun hc => hc.2.elim hx2 hX2)]
    simp
  have htake : [c1, c2].takeWhile (isRadixDigit 16) = [c1, c2] := by
    simp [List.takeWhile, hr1, hr2]
  simp only [jsParseInt, hdrop, hsign, hradix]
  unfold jsParseIntTail
  simp only [htake]
  rw [if_neg (by simp)]
  simp [digitsVal]
  ring

/-- Specification reading of hex decoding: the i-th output byte is the value
of the i-th hex digit pair. -/
def hexPairVals : JStr → List Nat
  | c1 :: c2 :: rest => (16 * digitVal c1 + digitVal c2) :: hexPairVals rest
  | _ => []

theorem hexToBytes_length : ∀ s : JStr, (hexToBytes s).length = (s.length + 1) / 2
  | [] => by simp [hexToBytes]
  | [c] => by simp [hexToBytes]
  | c1 :: c2 :: rest => by
    simp only [hexToBytes, List.length_cons, hexToBytes_length rest]
    omega

theorem hexToBytes_pairs : ∀ s : JStr, s.all isHexDigitJs = true → s.length % 2 = 0 →
    hexToBytes s = hexPairVals s
  | [], _, _ => rfl
  | [c], _, hl => by simp at hl
  | c1 :: c2 :: rest, ha, hl => by
    simp only [List.all_cons, Bool.and_eq_true] at ha
    obtain ⟨h1, h2, hrest⟩ := ha
    have hv := jsParseInt_hex_pair c1 c2 h1 h2
    have hd1 : digitVal c1 < 16 := digitVal_lt_sixteen h1
    have hd2 : digitVal c2 < 16 := digitVal_lt_sixteen h2
    have hfc : jsFromCharCode (jsParseInt 16 [c1, c2]) =
        16 * digitVal c1 + digitVal c2 := by
      rw [hv]
      unfold jsFromCharCode
      simp only []
      have hlt : ((16 * digitVal c1 + digitVal c2 : Nat) : Int) < 65536 := by
        have : (16 * digitVal c1 + digitVal c2 : Nat) < 65536 := by omega
        exact_mod_cast this
      have hge : (0 : Int) ≤ ((16 * digitVal c1 + digitVal c2 : Nat) : Int) :=
        Int.natCast_nonneg _
      rw [Int.emod_eq_of_lt hge hlt]
      rw [if_neg (by omega)]
      push_cast
      omega
    have hlrest : rest.length % 2 = 0 := by
      simp only [List.length_cons] at hl
      omega
    simp only [hexToBytes, hexPairVals, hfc,
      hexToBytes_pairs rest hrest hlrest]

/-- C7 counterexample: hex decoding never fails.  An odd-length input is
consumed with a one-character final chunk (`"abc"` becomes bytes `AB 0C`),
and a non-hex input produces byte 0 via `fromCharCode(NaN)` (`"zz"` becomes
the single byte 0), where the claim demands a `MalformedHex` failure in both
cases. -/
theorem c7_hex_decode_counterexample :
    hexToBytes ['a', 'b', 'c'] = [0xAB, 0x0C] ∧
    hexToBytes ['z', 'z'] = [0] := by
  constructor
  · rfl
  · rfl

/-- C7 amended: hex decoding is total — every input, odd-length or not, hex
or not, yields `(length + 1) / 2` bytes with no failure — and on even-length
all-hex input the i-th byte is the value of the i-th hex digit pair. -/
theorem c7_hex_decode_amended :
    (∀ s : JStr, (hexToBytes s).length = (s.length + 1) / 2) ∧
    (∀ s : JStr, s.all isHexDigitJs = true → s.length % 2 = 0 →
      hexToBytes s = hexPairVals s) :=
  ⟨hexToBytes_length, hexToBytes_pairs⟩

/-- Concrete check of the C7 amendment on `"0aFf"` and the odd-length
`"abc"`. -/
theorem c7_hex_decode_amended_witness :
    hexToBytes ['0', 'a', 'F', 'f'] = hexPairVals ['0', 'a', 'F', 'f'] ∧
    (hexToBytes ['a', 'b', 'c']).length = 2 := by
  constructor
  · exact c7_hex_decode_amended.2 ['0', 'a', 'F', 'f'] (by decide) (by decide)
  · rw [c7_hex_decode_amended.1 ['a', 'b', 'c']]
    rfl

/-! ## Claim C3: locator candidate ordering -/

/-- A document holding an Aadhaar `/SubFilter /ETSI.CAdES.detached` marker
followed by the `/Contents` hex blob it refers to. -/
def c3docStr : JStr :=
  ("%PDF-1.4 /SubFilter /ETSI.CAdES.detached /Contents <AB>").toList

/-- C3 counterexample: on a document carrying an Aadhaar-specific subfilter
marker, the locator emits the generic `/Contents` candidate (pattern array
position 0) before the Aadhaar-specific candidate (position 6) — the
reverse of the specificity ordering the claim states. -/
theorem c3_locator_order_counterexample :
    locatorScan c3docStr =
      [⟨.standardContents, ['A', 'B'], 41⟩, ⟨.aadhaarEsign, ['A', 'B'], 9⟩] := by
  decide

/-- Elements contributed by one pattern's scan all carry that pattern. -/
theorem mem_patternGroup (p : PatternTag) (s : JStr) (f : SigFound)
    (h : f ∈ (matchAll (patMatcher p) s).map (fun m => (⟨p, m.2, m.1⟩ : SigFound))) :
    f.pattern = p := by
  obtain ⟨m, -, rfl⟩ := List.mem_map.mp h
  rfl

/-- C3 amended: the locator emits candidates grouped in the `patterns`
array order — generic `/Contents` hex first, then indirect references,
ByteRange, `/Sig` dictionaries, PKCS#7 detached, PKCS#7 sha1, and the
Aadhaar subfilter last — so the array position of the pattern never
decreases along the emitted sequence. -/
theorem c3_locator_order_amended (pdfString : JStr) :
    locatorPatterns =
      [.standardContents, .indirectReference, .byteRangeContents, .sigDictionary,
       .pkcs7Detached, .pkcs7Sha1, .aadhaarEsign] ∧
    (locatorScan pdfString).Pairwise
      (fun a b => patternIdx a.pattern ≤ patternIdx b.pattern) := by
  refine ⟨rfl, ?_⟩
  unfold locatorScan
  rw [List.pairwise_flatMap]
  constructor
  · intro p hp
    rw [List.pairwise_map]
    exact List.pairwise_of_forall (fun x y => le_refl _)
  · have hmono : locatorPatterns.Pairwise
        (fun p₁ p₂ => patternIdx p₁ ≤ patternIdx p₂) := by decide
    exact hmono.imp (fun hle x hx y hy => by
      rw [mem_patternGroup _ _ _ hx, mem_patternGroup _ _ _ hy]
      exact hle)

/-- Concrete check of the C3 amendment on the marker document. -/
theorem c3_locator_order_amended_witness :
    (locatorScan c3docStr).Pairwise
      (fun a b => patternIdx a.pattern ≤ patternIdx b.pattern) :=
  (c3_locator_order_amended c3docStr).2

/-! ## Claim C4: missing subject/issuer structures -/

/-- A TBSCertificate holding a single INTEGER and no SEQUENCE-of-SET. -/
def c4tbs : Asn1 := .cons 0 16 true [.prim 0 2 false [1]]

/-- A certificate node around `c4tbs`. -/
def c4cert : Asn1 := .cons 0 16 true [c4tbs]

/-- C4 counterexample: on a certificate whose TBSCertificate holds no
subject/issuer SEQUENCE-of-SET pair, the extractor does not fail — it
returns a record with the serial number it scanned, `endDate` 0 and every
other field `NA`. -/
theorem c4_structure_counterexample :
    ((tbsFieldsOf c4tbs).foldl tbsStep tbsScanInit).subjectA = none ∧
    ((tbsFieldsOf c4tbs).foldl tbsStep tbsScanInit).issuerA = none ∧
    extractFromAsn1 c4cert =
      .ok ⟨['0', '1'], some 0, NAstr, NAstr, NAstr, NAstr, NAstr, NAstr,
           NAstr, NAstr⟩ := by
  refine ⟨rfl, rfl, rfl⟩

/-- C4 amended: when the TBSCertificate scan finds no subject and no issuer
SEQUENCE-of-SET, `extractFromAsn1` still returns a record instead of
failing: every attribute-derived field is `NA`; `endDate` is the number 0
when additionally no validity SEQUENCE was scanned (a decodable validity
still yields its decoded time), and the serial number is `NA` when no
INTEGER field was scanned. -/
theorem c4_structure_amended (t c : Nat) (k : Bool) (tbs : Asn1)
    (rest : List Asn1)
    (hsub : ((tbsFieldsOf tbs).foldl tbsStep tbsScanInit).subjectA = none)
    (hiss : ((tbsFieldsOf tbs).foldl tbsStep tbsScanInit).issuerA = none) :
    ∃ d : AadhaarDetails, extractFromAsn1 (.cons t c k (tbs :: rest)) = .ok d ∧
      d.signerName = NAstr ∧ d.tpin = NAstr ∧ d.state = NAstr ∧
      d.gender = NAstr ∧ d.yob = NAstr ∧ d.pincode = NAstr ∧
      d.issuerName = NAstr ∧ d.issuerOrganisation = NAstr ∧
      (((tbsFieldsOf tbs).foldl tbsStep tbsScanInit).validity = none →
        d.endDate = some 0) ∧
      (((tbsFieldsOf tbs).foldl tbsStep tbsScanInit).serialNumber = none →
        d.serialNumber = NAstr) := by
  simp only [extractFromAsn1]
  rw [hsub, hiss]
  refine ⟨_, rfl, rfl, rfl, rfl, rfl, rfl, rfl, rfl, rfl, ?_, ?_⟩
  · intro hv
    simp only [hv]
  · intro hs
    simp only [hs]

/-- Concrete check of the C4 amendment on `c4cert`. -/
theorem c4_structure_amended_witness :
    ∃ d : AadhaarDetails, extractFromAsn1 c4cert = .ok d ∧
      d.signerName = NAstr ∧ d.tpin = NAstr ∧ d.state = NAstr ∧
      d.gender = NAstr ∧ d.yob = NAstr ∧ d.pincode = NAstr ∧
      d.issuerName = NAstr ∧ d.issuerOrganisation = NAstr ∧
      (((tbsFieldsOf c4tbs).foldl tbsStep tbsScanInit).validity = none →
        d.endDate = some 0) ∧
      (((tbsFieldsOf c4tbs).foldl tbsStep tbsScanInit).serialNumber = none →
        d.serialNumber = NAstr) :=
  c4_structure_amended 0 16 true c4tbs [] rfl rfl

/-! ## Claim C8: provenance of record fields -/

/-- The serial-number `if` of the TBS scan in isolation. -/
def tbsStage1 (f : Asn1) (st : TbsScan) : TbsScan :=
  if f.typOf = 2 ∧ ¬ jsTruthyOpt st.serialNumber then
    { st with serialNumber := some (bytesToHexJs f) }
  else st

/-- The validity `if` of the TBS scan in isolation. -/
def tbsStage2 (f : Asn1) (st : TbsScan) : TbsScan :=
  if f.typOf = 16 ∧ f.valueLen = 2 ∧ st.validity.isNone then
    match fieldTimeDecode f with
    | some jn => { st with validity := some jn }
    | none => st
  else st

/-- The subject/issuer `if` of the TBS scan in isolation. -/
def tbsStage3 (f : Asn1) (st : TbsScan) : TbsScan :=
  let isSeqOfSet : Bool :=
    if f.typOf = 16 then
      match f with
      | .cons _ _ _ (h :: _) => h.typOf == 17
      | _ => false
    else false
  if isSeqOfSet then
    if st.issuerA.isNone then { st with issuerA := some f }
    else if st.subjectA.isNone then { st with subjectA := some f }
    else st
  else st

theorem tbsStep_stages (st : TbsScan) (f : Asn1) :
    tbsStep st f = tbsStage3 f (tbsStage2 f (tbsStage1 f st)) := rfl

theorem tbsStage1_serial (f : Asn1) (st : TbsScan) :
    (tbsStage1 f st).serialNumber = st.serialNumber ∨
    (tbsStage1 f st).serialNumber = some (bytesToHexJs f) := by
  unfold tbsStage1
  split_ifs
  · right
    rfl
  · left
    rfl

theorem tbsStage2_serial (f : Asn1) (st : TbsScan) :
    (tbsStage2 f st).serialNumber = st.serialNumber := by
  unfold tbsStage2
  split_ifs
  · cases hfd : fieldTimeDecode f
    · rfl
    · rfl
  · rfl

theorem tbsStage3_serial (f : Asn1) (st : TbsScan) :
    (tbsStage3 f st).serialNumber = st.serialNumber := by
  unfold tbsStage3
  simp only []
  split_ifs
  all_goals rfl

theorem tbsStage1_validity (f : Asn1) (st : TbsScan) :
    (tbsStage1 f st).validity = st.validity := by
  unfold tbsStage1
  split_ifs
  · rfl
  · rfl

theorem tbsStage2_validity (f : Asn1) (st : TbsScan) :
    (tbsStage2 f st).validity = st.validity ∨
    ∃ jn, fieldTimeDecode f = some jn ∧ (tbsStage2 f st).validity = some jn := by
  unfold tbsStage2
  split_ifs
  · cases hfd : fieldTimeDecode f with
    | none => left; rfl
    | some jn => right; exact ⟨jn, rfl, rfl⟩
  · left
    rfl

theorem tbsStage3_validity (f : Asn1) (st : TbsScan) :
    (tbsStage3 f st).validity = st.validity := by
  unfold tbsStage3
  simp only []
  split_ifs
  all_goals rfl

theorem tbsStep_serial (st : TbsScan) (f : Asn1) :
    (tbsStep st f).serialNumber = st.serialNumber ∨
    (tbsStep st f).serialNumber = some (bytesToHexJs f) := by
  rw [tbsStep_stages, tbsStage3_serial, tbsStage2_serial]
  exact tbsStage1_serial f st

theorem tbsStep_validity (st : TbsScan) (f : Asn1) :
    (tbsStep st f).validity = st.validity ∨
    ∃ jn, fieldTimeDecode f = some jn ∧ (tbsStep st f).validity = some jn := by
  rw [tbsStep_stages, tbsStage3_validity]
  rcases tbsStage2_validity f (tbsStage1 f st) with hv | ⟨jn, hj, hv⟩
  · left
    rw [hv, tbsStage1_validity]
  · right
    exact ⟨jn, hj, hv⟩

/-- The TBS fold takes its serial number and validity from scanned fields
(or keeps the initial values). -/
theorem foldl_tbsStep_inv (fields : List Asn1) (st : TbsScan) :
    ((fields.foldl tbsStep st).serialNumber = st.serialNumber ∨
      ∃ f ∈ fields, (fields.foldl tbsStep st).serialNumber =
        some (bytesToHexJs f)) ∧
    ((fields.foldl tbsStep st).validity = st.validity ∨
      ∃ f ∈ fields, ∃ jn, fieldTimeDecode f = some jn ∧
        (fields.foldl tbsStep st).validity = some jn) := by
  induction fields generalizing st with
  | nil => exact ⟨Or.inl rfl, Or.inl rfl⟩
  | cons f rest ih =>
    simp only [List.foldl_cons]
    obtain ⟨ihs, ihv⟩ := ih (tbsStep st f)
    constructor
    · rcases ihs with heq | ⟨g, hg, hge⟩
      · rcases tbsStep_serial st f with h1 | h1
        · left
          rw [heq, h1]
        · right
          exact ⟨f, by simp, by rw [heq, h1]⟩
      · right
        exact ⟨g, by simp [hg], hge⟩
    · rcases ihv with heq | ⟨g, hg, jn, hj, hje⟩
      · rcases tbsStep_validity st f with h1 | ⟨jn, hj, h1⟩
        · left
          rw [heq, h1]
        · right
          exact ⟨f, by simp, jn, hj, by rw [heq, h1]⟩
      · right
        exact ⟨g, by simp [hg], jn, hj, hje⟩

/-- The value strings of an attribute map. -/
def attrValues (m : AttrMap) : List JStr := m.map (fun p => p.2)

/-- A property read that yields a value yields a stored value. -/
theorem attrGet_mem (m : AttrMap) (k v : JStr) (h : attrGet m k = some v) :
    v ∈ attrValues m := by
  unfold attrGet at h
  obtain ⟨p, hfind, hv⟩ := Option.map_eq_some'.mp h
  have hmem : p ∈ m.reverse := List.mem_of_find?_eq_some hfind
  rw [List.mem_reverse] at hmem
  rw [← hv]
  exact List.mem_map_of_mem _ hmem

/-- An `a || b` read over two keys of one map is a stored value when
defined. -/
theorem jsOrOpt_attr_mem (m : AttrMap) (k1 k2 v : JStr)
    (h : jsOrOpt (attrGet m k1) (attrGet m k2) = some v) :
    v ∈ attrValues m := by
  unfold jsOrOpt at h
  split_ifs at h
  · exact attrGet_mem m k1 v h
  · exact attrGet_mem m k2 v h

/-- An `a || b || NA` field over two keys of one map is `NA` or a stored
value. -/
theorem jsOrNA_attr_cases (m : AttrMap) (k1 k2 : JStr) :
    jsOrNA (attrGet m k1) (attrGet m k2) = NAstr ∨
    jsOrNA (attrGet m k1) (attrGet m k2) ∈ attrValues m := by
  unfold jsOrNA
  cases hq : jsOrOpt (attrGet m k1) (attrGet m k2) with
  | none => left; rfl
  | some s =>
    simp only []
    split_ifs
    · right
      exact jsOrOpt_attr_mem m k1 k2 s hq
    · left
      rfl

/-- A qualifier-guarded field over two keys of one map is `NA` or the
decoder applied to a stored value. -/
theorem qualField_cases (m : AttrMap) (k1 k2 : JStr) (G : Option JStr → JStr) :
    (if jsTruthyOpt (jsOrOpt (attrGet m k1) (attrGet m k2)) then
       G (jsOrOpt (attrGet m k1) (attrGet m k2)) else NAstr) = NAstr ∨
    ∃ v ∈ attrValues m,
      (if jsTruthyOpt (jsOrOpt (attrGet m k1) (attrGet m k2)) then
        G (jsOrOpt (attrGet m k1) (attrGet m k2)) else NAstr) = G (some v) := by
  cases hq : jsOrOpt (attrGet m k1) (attrGet m k2) with
  | none =>
    left
    rfl
  | some v =>
    by_cases ht : jsTruthyOpt (some v) = true
    · right
      exact ⟨v, jsOrOpt_attr_mem m k1 k2 v hq, by rw [if_pos ht]⟩
    · left
      rw [if_neg ht]

/-- An `a || NA` field over one key of a map is `NA` or a stored value. -/
theorem jsOrNA_attr_none_cases (m : AttrMap) (k : JStr) :
    jsOrNA (attrGet m k) none = NAstr ∨
    jsOrNA (attrGet m k) none ∈ attrValues m := by
  unfold jsOrNA
  cases hq : jsOrOpt (attrGet m k) none with
  | none => left; rfl
  | some s =>
    simp only []
    split_ifs
    · right
      have hk : attrGet m k = some s := by
        unfold jsOrOpt at hq
        split_ifs at hq
        exact hq
      exact attrGet_mem m k s hk
    · left
      rfl

/-- A decoder applied directly to an `a || b` read over two keys of one map
is `NA` (the decoder's value on a missing input) or the decoder applied to
a stored value. -/
theorem qualFieldDirect_cases (m : AttrMap) (k1 k2 : JStr)
    (G : Option JStr → JStr) (hG : G none = NAstr) :
    G (jsOrOpt (attrGet m k1) (attrGet m k2)) = NAstr ∨
    ∃ v ∈ attrValues m,
      G (jsOrOpt (attrGet m k1) (attrGet m k2)) = G (some v) := by
  cases hq : jsOrOpt (attrGet m k1) (attrGet m k2) with
  | none =>
    left
    exact hG
  | some v =>
    right
    exact ⟨v, jsOrOpt_attr_mem m k1 k2 v hq, rfl⟩

/-- An empty TBSCertificate: no serial, no validity, no names. -/
def c8tbs : Asn1 := .cons 0 16 true []

/-- A certificate node around `c8tbs`. -/
def c8cert : Asn1 := .cons 0 16 true [c8tbs]

/-- C8 counterexample: on a certificate with no decodable validity at all,
the returned record's `endDate` is the number 0 — epoch milliseconds of
1970 — not the sentinel `NA` that the claim requires for undecodable
source structures; the field is a number and can never hold `NA`. -/
theorem c8_field_sentinel_counterexample :
    ((tbsFieldsOf c8tbs).foldl tbsStep tbsScanInit).validity = none ∧
    extractFromAsn1 c8cert =
      .ok ⟨NAstr, some 0, NAstr, NAstr, NAstr, NAstr, NAstr, NAstr,
           NAstr, NAstr⟩ ∧
    (some 0 : Option Int) ≠ none ∧ NAstr ≠ [] := by
  exact ⟨rfl, rfl, by decide, by decide⟩

/-- C8 amended: a record returned by either construction path has every
string field `NA` or traceable to the certificate, while `endDate`
(notAfterEpochMillis) is a number and never the string `NA`.  In the ASN.1
fallback extractor the name fields come from stored attribute values,
gender/year/pincode from the decoders applied to stored values, the serial
number from the hex of a scanned TBS field, and `endDate` is the number 0
when no validity was scanned, otherwise the time decode of a scanned
validity field (NaN when that parse failed).  In the forge path the serial
number and the end date are the decoded certificate object's own fields,
and every other field is `NA` or derived from a stored attribute value in
the same way. -/
theorem c8_field_provenance_amended :
    (∀ (t c : Nat) (k : Bool) (tbs : Asn1) (rest : List Asn1)
        (d : AadhaarDetails),
      extractFromAsn1 (.cons t c k (tbs :: rest)) = .ok d →
      ∃ subjectAttrs issuerAttrs : AttrMap,
        extractAsn1AttributesE
            ((tbsFieldsOf tbs).foldl tbsStep tbsScanInit).subjectA =
          .ok subjectAttrs ∧
        extractAsn1AttributesE
            ((tbsFieldsOf tbs).foldl tbsStep tbsScanInit).issuerA =
          .ok issuerAttrs ∧
        (d.signerName = NAstr ∨ d.signerName ∈ attrValues subjectAttrs) ∧
        (d.tpin = NAstr ∨ d.tpin ∈ attrValues subjectAttrs) ∧
        (d.state = NAstr ∨ d.state ∈ attrValues subjectAttrs) ∧
        (d.issuerName = NAstr ∨ d.issuerName ∈ attrValues issuerAttrs) ∧
        (d.issuerOrganisation = NAstr ∨
          d.issuerOrganisation ∈ attrValues issuerAttrs) ∧
        (d.gender = NAstr ∨
          ∃ v ∈ attrValues subjectAttrs, d.gender = getGenderInfo (some v)) ∧
        (d.yob = NAstr ∨
          ∃ v ∈ attrValues subjectAttrs, d.yob = getBirthYear (some v)) ∧
        (d.pincode = NAstr ∨
          ∃ v ∈ attrValues subjectAttrs, d.pincode = getPinCode (some v)) ∧
        (d.serialNumber = NAstr ∨
          ∃ f ∈ tbsFieldsOf tbs, d.serialNumber = bytesToHexJs f) ∧
        (d.endDate = some 0 ∨
          ∃ f ∈ tbsFieldsOf tbs, fieldTimeDecode f = some d.endDate)) ∧
    (∀ cert : CertObj,
      (extractAadhaarSignDetails cert).serialNumber = cert.serialNumber ∧
      (extractAadhaarSignDetails cert).endDate = cert.notAfterMillis ∧
      ((extractAadhaarSignDetails cert).signerName = NAstr ∨
        (extractAadhaarSignDetails cert).signerName ∈
          attrValues (getAttributes cert.subjectAttrs)) ∧
      ((extractAadhaarSignDetails cert).tpin = NAstr ∨
        (extractAadhaarSignDetails cert).tpin ∈
          attrValues (getAttributes cert.subjectAttrs)) ∧
      ((extractAadhaarSignDetails cert).state = NAstr ∨
        (extractAadhaarSignDetails cert).state ∈
          attrValues (getAttributes cert.subjectAttrs)) ∧
      ((extractAadhaarSignDetails cert).issuerName = NAstr ∨
        (extractAadhaarSignDetails cert).issuerName ∈
          attrValues (getAttributes cert.issuerAttrs)) ∧
      ((extractAadhaarSignDetails cert).issuerOrganisation = NAstr ∨
        (extractAadhaarSignDetails cert).issuerOrganisation ∈
          attrValues (getAttributes cert.issuerAttrs)) ∧
      ((extractAadhaarSignDetails cert).gender = NAstr ∨
        ∃ v ∈ attrValues (getAttributes cert.subjectAttrs),
          (extractAadhaarSignDetails cert).gender = getGenderInfo (some v)) ∧
      ((extractAadhaarSignDetails cert).yob = NAstr ∨
        ∃ v ∈ attrValues (getAttributes cert.subjectAttrs),
          (extractAadhaarSignDetails cert).yob = getBirthYear (some v)) ∧
      ((extractAadhaarSignDetails cert).pincode = NAstr ∨
        ∃ v ∈ attrValues (getAttributes cert.subjectAttrs),
          (extractAadhaarSignDetails cert).pincode = getPinCode (some v))) := by
  constructor
  · intro t c k tbs rest d h
    simp only [extractFromAsn1] at h
    cases hs : extractAsn1AttributesE
        ((tbsFieldsOf tbs).foldl tbsStep tbsScanInit).subjectA with
    | error e =>
      rw [hs] at h
      exact absurd h (by simp)
    | ok subjectAttrs =>
      rw [hs] at h
      cases hi : extractAsn1AttributesE
          ((tbsFieldsOf tbs).foldl tbsStep tbsScanInit).issuerA with
      | error e =>
        rw [hi] at h
        exact absurd h (by simp)
      | ok issuerAttrs =>
        rw [hi] at h
        injection h with hd
        subst hd
        obtain ⟨hser, hval⟩ := foldl_tbsStep_inv (tbsFieldsOf tbs) tbsScanInit
        refine ⟨subjectAttrs, issuerAttrs, rfl, rfl,
          jsOrNA_attr_cases _ _ _, jsOrNA_attr_cases _ _ _,
          jsOrNA_attr_cases _ _ _, jsOrNA_attr_cases _ _ _,
          jsOrNA_attr_cases _ _ _,
          qualField_cases _ _ _ getGenderInfo,
          qualField_cases _ _ _ getBirthYear, ?_, ?_, ?_⟩
        · rcases qualField_cases subjectAttrs "2.5.4.17".toList
            "postalCode".toList getPinCode with hc | hc
          · exact Or.inl hc
          · exact Or.inr hc
        · rcases hser with hn | ⟨f, hf, hfe⟩
          · left
            have h0 : (List.foldl tbsStep tbsScanInit (tbsFieldsOf tbs)).serialNumber =
                none := hn.trans rfl
            simp only [h0]
          · by_cases ht : jsTruthy (bytesToHexJs f) = true
            · right
              refine ⟨f, hf, ?_⟩
              simp only [hfe]
              rw [if_pos ht]
            · left
              simp only [hfe]
              rw [if_neg ht]
        · rcases hval with hn | ⟨f, hf, jn, hj, hje⟩
          · left
            have h0 : (List.foldl tbsStep tbsScanInit (tbsFieldsOf tbs)).validity =
                none := hn.trans rfl
            simp only [h0]
          · right
            refine ⟨f, hf, ?_⟩
            simp only [hje]
            exact hj
  · intro cert
    exact ⟨rfl, rfl,
      jsOrNA_attr_none_cases _ _, jsOrNA_attr_none_cases _ _,
      jsOrNA_attr_none_cases _ _, jsOrNA_attr_none_cases _ _,
      jsOrNA_attr_none_cases _ _,
      qualFieldDirect_cases _ _ _ getGenderInfo rfl,
      qualFieldDirect_cases _ _ _ getBirthYear rfl,
      qualFieldDirect_cases _ _ _ getPinCode rfl⟩

/-- A minimal decoded certificate object for the forge path. -/
def c8certObj : CertObj :=
  ⟨['0', '1'], some 0, some 1767225600000, [], [], .prim 0 0 false []⟩

/-- Concrete check of the C8 amendment on the empty-TBS certificate (ASN.1
path) and on a minimal decoded certificate object (forge path). -/
theorem c8_field_provenance_amended_witness :
    (∃ subjectAttrs issuerAttrs : AttrMap,
      extractAsn1AttributesE
          ((tbsFieldsOf c8tbs).foldl tbsStep tbsScanInit).subjectA =
        .ok subjectAttrs ∧
      extractAsn1AttributesE
          ((tbsFieldsOf c8tbs).foldl tbsStep tbsScanInit).issuerA =
        .ok issuerAttrs ∧
      (NAstr = NAstr ∨ NAstr ∈ attrValues subjectAttrs) ∧
      (NAstr = NAstr ∨ NAstr ∈ attrValues subjectAttrs) ∧
      (NAstr = NAstr ∨ NAstr ∈ attrValues subjectAttrs) ∧
      (NAstr = NAstr ∨ NAstr ∈ attrValues issuerAttrs) ∧
      (NAstr = NAstr ∨ NAstr ∈ attrValues issuerAttrs) ∧
      (NAstr = NAstr ∨
        ∃ v ∈ attrValues subjectAttrs, NAstr = getGenderInfo (some v)) ∧
      (NAstr = NAstr ∨
        ∃ v ∈ attrValues subjectAttrs, NAstr = getBirthYear (some v)) ∧
      (NAstr = NAstr ∨
        ∃ v ∈ attrValues subjectAttrs, NAstr = getPinCode (some v)) ∧
      (NAstr = NAstr ∨ ∃ f ∈ tbsFieldsOf c8tbs, NAstr = bytesToHexJs f) ∧
      ((some 0 : Option Int) = some 0 ∨
        ∃ f ∈ tbsFieldsOf c8tbs, fieldTimeDecode f = some (some 0))) ∧
    ((extractAadhaarSignDetails c8certObj).serialNumber =
        c8certObj.serialNumber ∧
      (extractAadhaarSignDetails c8certObj).endDate = c8certObj.notAfterMillis ∧
      ((extractAadhaarSignDetails c8certObj).signerName = NAstr ∨
        (extractAadhaarSignDetails c8certObj).signerName ∈
          attrValues (getAttributes c8certObj.subjectAttrs)) ∧
      ((extractAadhaarSignDetails c8certObj).tpin = NAstr ∨
        (extractAadhaarSignDetails c8certObj).tpin ∈
          attrValues (getAttributes c8certObj.subjectAttrs)) ∧
      ((extractAadhaarSignDetails c8certObj).state = NAstr ∨
        (extractAadhaarSignDetails c8certObj).state ∈
          attrValues (getAttributes c8certObj.subjectAttrs)) ∧
      ((extractAadhaarSignDetails c8certObj).issuerName = NAstr ∨
        (extractAadhaarSignDetails c8certObj).issuerName ∈
          attrValues (getAttributes c8certObj.issuerAttrs)) ∧
      ((extractAadhaarSignDetails c8certObj).issuerOrganisation = NAstr ∨
        (extractAadhaarSignDetails c8certObj).issuerOrganisation ∈
          attrValues (getAttributes c8certObj.issuerAttrs)) ∧
      ((extractAadhaarSignDetails c8certObj).gender = NAstr ∨
        ∃ v ∈ attrValues (getAttributes c8certObj.subjectAttrs),
          (extractAadhaarSignDetails c8certObj).gender =
            getGenderInfo (some v)) ∧
      ((extractAadhaarSignDetails c8certObj).yob = NAstr ∨
        ∃ v ∈ attrValues (getAttributes c8certObj.subjectAttrs),
          (extractAadhaarSignDetails c8certObj).yob = getBirthYear (some v)) ∧
      ((extractAadhaarSignDetails c8certObj).pincode = NAstr ∨
        ∃ v ∈ attrValues (getAttributes c8certObj.subjectAttrs),
          (extractAadhaarSignDetails c8certObj).pincode =
            getPinCode (some v))) :=
  ⟨c8_field_provenance_amended.1 0 16 true c8tbs []
      ⟨NAstr, some 0, NAstr, NAstr, NAstr, NAstr, NAstr, NAstr, NAstr, NAstr⟩
      rfl,
    c8_field_provenance_amended.2 c8certObj⟩

/-! ## Claim C2: the byte-pattern scan fallback -/

/-- A DER SEQUENCE of declared content length 450 (`30 82 01 C2`) holding an
OCTET STRING, an empty SEQUENCE and a BIT STRING — three elements, below
the strategy-0 bound of 500 but inside the strategy-2 bound of 400. -/
def c2buf : List Nat :=
  [0x30, 0x82, 0x01, 0xC2] ++
    ([0x04, 0x82, 0x01, 0xB9] ++ List.replicate 441 1) ++
    [0x30, 0x00] ++ [0x03, 0x01, 0x00]

set_option maxRecDepth 100000 in
/-- C2 counterexample: the direct scan (whose admissibility test requires a
declared length of at least 500) emits nothing on `c2buf`, yet the
byte-pattern fallback still returns the slice — through its relaxed
strategy 2 — although the slice's declared content length 450 fails the
claimed 500..10000 bound. -/
theorem c2_admissibility_counterexample :
    scanForCertificates c2buf = [] ∧
    extractCertificateByPattern c2buf = .ok c2buf ∧
    beAccum c2buf 2 2 = 450 ∧ ¬ (500 ≤ (450 : Int)) := by
  refine ⟨by decide, rfl, by decide, by decide⟩

theorem getD_take_of_lt (l : List Nat) (k i d : Nat) (h : i < k) :
    (l.take k).getD i d = l.getD i d := by
  simp only [List.getD_eq_getElem?_getD, List.getElem?_take_of_lt h]

/-- Big-endian length accumulation over agreeing prefixes. -/
theorem beAccum_succ (l : List Nat) (pos n : Nat) :
    beAccum l pos (n + 1) = jsShl8Or (beAccum l pos n) (l.getD (pos + n) 0) := by
  unfold beAccum
  rw [List.range_succ, List.foldl_append, List.foldl_cons, List.foldl_nil]

theorem beAccum_take (l : List Nat) (k pos n : Nat) (h : pos + n ≤ k) :
    beAccum (l.take k) pos n = beAccum l pos n := by
  induction n with
  | zero => rfl
  | succ m ih =>
    rw [beAccum_succ, beAccum_succ, ih (by omega),
      getD_take_of_lt l k (pos + m) 0 (by omega)]

/-- The number of length bytes a long-form slice declares. -/
def sliceNumLenBytes (raw : List Nat) : Nat := raw.getD 1 0 &&& 0x7F

/-- The content length a long-form slice declares, read from its own
header with the scan's accumulation. -/
def sliceDeclaredLen (raw : List Nat) : Int :=
  beAccum raw 2 (sliceNumLenBytes raw)

/-- Invariant of the direct scan: every emitted candidate is a long-form
SEQUENCE slice whose declared length is within 500..10000, whose byte count
equals header plus declared length, and whose bytes parse with exactly
three top-level elements. -/
theorem scanForCertsGo_mem : ∀ (suf : List Nat) (i : Nat) (c : FoundCert),
    c ∈ scanForCertsGo suf i →
    c.raw.getD 0 0 = 0x30 ∧
    (c.raw.getD 1 0 = 0x82 ∨ c.raw.getD 1 0 = 0x83) ∧
    500 ≤ sliceDeclaredLen c.raw ∧ sliceDeclaredLen c.raw ≤ 10000 ∧
    c.raw.length = 2 + sliceNumLenBytes c.raw + (sliceDeclaredLen c.raw).toNat ∧
    c.size = c.raw.length ∧
    (∃ a, fromDer c.raw = .ok a ∧ a.isArrayOfLen 3 = true)
  | [], i, c => by
    intro hc
    simp [scanForCertsGo] at hc
  | b0 :: rest, i, c => by
    intro hc
    simp only [scanForCertsGo] at hc
    split at hc
    · simp at hc
    · split at hc
      case isFalse => exact scanForCertsGo_mem rest (i + 1) c hc
      case isTrue hhit =>
        split at hc
        case isFalse => exact scanForCertsGo_mem rest (i + 1) c hc
        case isTrue hcond =>
          rw [List.mem_append] at hc
          rcases hc with hc | hc
          case inr => exact scanForCertsGo_mem rest (i + 1) c hc
          case inl =>
            split at hc
            case isFalse => simp at hc
            case isTrue hok3 =>
              simp only [List.mem_singleton] at hc
              subst hc
              simp only [Bool.and_eq_true, Bool.or_eq_true, beq_iff_eq] at hhit
              obtain ⟨hb0, h1⟩ := hhit
              obtain ⟨h500, h10000, hfit⟩ := hcond
              cases hfd : fromDer ((b0 :: rest).take
                  (2 + ((b0 :: rest).getD 1 0 &&& 0x7F) +
                    (beAccum (b0 :: rest) 2 ((b0 :: rest).getD 1 0 &&& 0x7F)).toNat)) with
              | error e =>
                rw [hfd] at hok3
                exact absurd hok3 (by simp)
              | ok a =>
                rw [hfd] at hok3
                have hk500 : (500 : Int) ≤
                    beAccum (b0 :: rest) 2 ((b0 :: rest).getD 1 0 &&& 0x7F) := h500
                have hkpos : 500 ≤
                    (beAccum (b0 :: rest) 2 ((b0 :: rest).getD 1 0 &&& 0x7F)).toNat := by
                  omega
                have hg0 : ((b0 :: rest).take
                    (2 + ((b0 :: rest).getD 1 0 &&& 0x7F) +
                      (beAccum (b0 :: rest) 2 ((b0 :: rest).getD 1 0 &&& 0x7F)).toNat)).getD
                      0 0 = b0 := by
                  rw [getD_take_of_lt _ _ _ _ (by omega)]
                  rfl
                have hg1 : ((b0 :: rest).take
                    (2 + ((b0 :: rest).getD 1 0 &&& 0x7F) +
                      (beAccum (b0 :: rest) 2 ((b0 :: rest).getD 1 0 &&& 0x7F)).toNat)).getD
                      1 0 = (b0 :: rest).getD 1 0 :=
                  getD_take_of_lt _ _ _ _ (by omega)
                have hbe : beAccum ((b0 :: rest).take
                    (2 + ((b0 :: rest).getD 1 0 &&& 0x7F) +
                      (beAccum (b0 :: rest) 2 ((b0 :: rest).getD 1 0 &&& 0x7F)).toNat))
                      2 ((b0 :: rest).getD 1 0 &&& 0x7F) =
                    beAccum (b0 :: rest) 2 ((b0 :: rest).getD 1 0 &&& 0x7F) :=
                  beAccum_take _ _ _ _ (by omega)
                have hlen : ((b0 :: rest).take
                    (2 + ((b0 :: rest).getD 1 0 &&& 0x7F) +
                      (beAccum (b0 :: rest) 2 ((b0 :: rest).getD 1 0 &&& 0x7F)).toNat)).length =
                    2 + ((b0 :: rest).getD 1 0 &&& 0x7F) +
                      (beAccum (b0 :: rest) 2 ((b0 :: rest).getD 1 0 &&& 0x7F)).toNat := by
                  rw [List.length_take]
                  omega
                refine ⟨by rw [hg0, hb0], ?_, ?_, ?_, ?_, ?_, ⟨a, rfl, hok3⟩⟩
                · unfold sliceNumLenBytes at *
                  rw [hg1]
                  exact h1
                · unfold sliceDeclaredLen sliceNumLenBytes
                  rw [hg1, hbe]
                  exact h500
                · unfold sliceDeclaredLen sliceNumLenBytes
                  rw [hg1, hbe]
                  exact h10000
                · unfold sliceDeclaredLen sliceNumLenBytes
                  rw [hg1, hbe, hlen]
                · rw [hlen]

/-- C2 amended: the 500..10000 admissibility test governs the direct scan
(`scanForCertificates`): each of its candidates is a long-form SEQUENCE
slice with declared length within 500..10000, byte count equal to header
plus declared length, and a three-element parse.  (The fallback's later
strategies are bounded differently — see the counterexample.) -/
theorem c2_admissibility_amended (bytes : List Nat) (c : FoundCert)
    (hc : c ∈ scanForCertificates bytes) :
    c.raw.getD 0 0 = 0x30 ∧
    (c.raw.getD 1 0 = 0x82 ∨ c.raw.getD 1 0 = 0x83) ∧
    500 ≤ sliceDeclaredLen c.raw ∧ sliceDeclaredLen c.raw ≤ 10000 ∧
    c.raw.length = 2 + sliceNumLenBytes c.raw + (sliceDeclaredLen c.raw).toNat ∧
    c.size = c.raw.length ∧
    (∃ a, fromDer c.raw = .ok a ∧ a.isArrayOfLen 3 = true) :=
  scanForCertsGo_mem bytes 0 c hc

/-- A DER SEQUENCE of declared content length 504 (`30 82 01 F8`) holding an
OCTET STRING, an empty SEQUENCE and a BIT STRING — an admissible direct-scan
candidate. -/
def certC1 : List Nat :=
  [0x30, 0x82, 0x01, 0xF8] ++
    ([0x04, 0x82, 0x01, 0xEF] ++ List.replicate 495 1) ++
    [0x30, 0x00] ++ [0x03, 0x01, 0x00]

set_option maxRecDepth 100000 in
/-- Concrete check of the C2 amendment on the candidate the direct scan
emits for `certC1`. -/
theorem c2_admissibility_amended_witness :
    (⟨certC1, 508, 0⟩ : FoundCert) ∈ scanForCertificates certC1 ∧
    500 ≤ sliceDeclaredLen certC1 ∧ sliceDeclaredLen certC1 ≤ 10000 ∧
    certC1.length = 2 + sliceNumLenBytes certC1 + (sliceDeclaredLen certC1).toNat ∧
    (∃ a, fromDer certC1 = .ok a ∧ a.isArrayOfLen 3 = true) := by
  have hmem : (⟨certC1, 508, 0⟩ : FoundCert) ∈ scanForCertificates certC1 := by
    decide
  have h := c2_admissibility_amended certC1 ⟨certC1, 508, 0⟩ hmem
  exact ⟨hmem, h.2.2.1, h.2.2.2.1, h.2.2.2.2.1, h.2.2.2.2.2.2⟩

/-! ## Claim C1: the full pipeline's fallback -/

/-- A second signature blob: a NULL value followed by trailing bytes, so the
strict PKCS#7 parse fails with unparsed bytes and the byte-pattern fallback
recovers the embedded `certC1`. -/
def sig2bytes : List Nat := [5, 0] ++ certC1

/-- A document with two `/Contents` groups: a first undecodable `00` blob
and a second blob that decodes to a certificate without Aadhaar data. -/
def c1docStr : JStr :=
  "%PDF-1.4 /Contents <00> /Contents <".toList ++ bytesToHexStr sig2bytes ++ ['>']

def c1doc : List Nat := strBytes c1docStr

set_option maxRecDepth 400000 in
/-- C1 counterexample: the second signature decodes to a (non-qualifying)
record, yet when no signature qualifies the pipeline re-extracts the FIRST
match `00` and propagates its failure — instead of returning the first
successfully decoded record as the claim states. -/
theorem c1_pipeline_counterexample :
    contentsMatches (latin1Str c1doc) = [['0', '0'], bytesToHexStr sig2bytes] ∧
    extractCertificateFromPKCS7 (hexToBytes (bytesToHexStr sig2bytes)) =
      .ok certC1 ∧
    parseCertificateFromBuffer certC1 =
      .ok ⟨NAstr, some 0, NAstr, NAstr, NAstr, NAstr, NAstr, NAstr,
           NAstr, NAstr⟩ ∧
    hasAadhaarData ⟨NAstr, some 0, NAstr, NAstr, NAstr, NAstr, NAstr, NAstr,
      NAstr, NAstr⟩ = false ∧
    extractIdentityFromDocument c1doc = .error (.der .tooFewTag) := by
  refine ⟨by decide, rfl, rfl, by decide, rfl⟩

/-- A signature qualifies when its blob extracts to a certificate whose
record carries Aadhaar data. -/
def sigQualifies (h : JStr) : Bool :=
  match extractCertificateFromPKCS7 (hexToBytes h) with
  | .ok cert =>
    match parseCertificateFromBuffer cert with
    | .ok d => hasAadhaarData d
    | .error _ => false
  | .error _ => false

/-- The signature loop returns the extraction of the first qualifying
signature. -/
theorem findQualifyingSig_eq : ∀ ms : List JStr,
    findQualifyingSig ms =
      match ms.find? sigQualifies with
      | some h => (extractCertificateFromPKCS7 (hexToBytes h)).toOption
      | none => none
  | [] => rfl
  | h :: rest => by
    unfold findQualifyingSig
    cases he : extractCertificateFromPKCS7 (hexToBytes h) with
    | error e =>
      simp only []
      have hq : sigQualifies h = false := by
        unfold sigQualifies
        rw [he]
      rw [List.find?_cons_of_neg _ (by simp [hq])]
      exact findQualifyingSig_eq rest
    | ok cert =>
      simp only []
      cases hp : parseCertificateFromBuffer cert with
      | error e =>
        simp only []
        have hq : sigQualifies h = false := by
          unfold sigQualifies
          rw [he]
          simp only []
          rw [hp]
        rw [List.find?_cons_of_neg _ (by simp [hq])]
        exact findQualifyingSig_eq rest
      | ok d =>
        simp only []
        have hq : sigQualifies h = hasAadhaarData d := by
          unfold sigQualifies
          rw [he]
          simp only []
          rw [hp]
        cases hd : hasAadhaarData d with
        | true =>
          rw [List.find?_cons_of_pos _ (by simp [hq, hd])]
          simp [he, Except.toOption]
        | false =>
          rw [List.find?_cons_of_neg _ (by simp [hq, hd])]
          rw [if_neg (by simp [hd])]
          exact findQualifyingSig_eq rest

/-- C1 amended: with no `/Contents` group the pipeline fails with the
`No signature found` error; otherwise it returns the extraction of the
first qualifying signature and, when none qualifies, re-runs the extraction
of the FIRST group — propagating that extraction's failure rather than
returning the first successfully decoded record. -/
theorem c1_pipeline_amended (pdfBuffer : List Nat) :
    (contentsMatches (latin1Str pdfBuffer) = [] →
      extractCertificateFromPDF pdfBuffer = .error .noSignatureFound) ∧
    (∀ m0 rest, contentsMatches (latin1Str pdfBuffer) = m0 :: rest →
      extractCertificateFromPDF pdfBuffer =
        match (m0 :: rest).find? sigQualifies with
        | some h => extractCertificateFromPKCS7 (hexToBytes h)
        | none => extractCertificateFromPKCS7 (hexToBytes m0)) := by
  constructor
  · intro hm
    simp only [extractCertificateFromPDF]
    rw [hm]
  · intro m0 rest hm
    simp only [extractCertificateFromPDF]
    rw [hm]
    simp only []
    rw [findQualifyingSig_eq]
    cases hf : (m0 :: rest).find? sigQualifies with
    | none => rfl
    | some h =>
      simp only []
      have hq : sigQualifies h = true := List.find?_some hf
      unfold sigQualifies at hq
      cases he : extractCertificateFromPKCS7 (hexToBytes h) with
      | error e =>
        rw [he] at hq
        exact absurd hq (by simp)
      | ok cert =>
        rfl

set_option maxRecDepth 400000 in
/-- Concrete check of the C1 amendment on the two-signature document. -/
theorem c1_pipeline_amended_witness :
    extractCertificateFromPDF c1doc =
      match ([['0', '0'], bytesToHexStr sig2bytes]).find? sigQualifies with
      | some h => extractCertificateFromPKCS7 (hexToBytes h)
      | none => extractCertificateFromPKCS7 (hexToBytes ['0', '0']) :=
  (c1_pipeline_amended c1doc).2 ['0', '0'] [bytesToHexStr sig2bytes] (by decide)
